import Mathlib

/-!
# influxdb-loader: a model of `main.go` and its batching behaviour

The program parses flags into a `Config`, makes sure the database exists,
generates `Rows` random points and hands them to `cl.Write` in batches of
`BatchSize`, one goroutine per batch, joined by a `sync.WaitGroup`.

Modelling choices.
* Go's `int` is a two's-complement integer of 32 or 64 bits (`IntSize`).
  Values are kept in `Int`; `i++` and `/` wrap explicitly (`wrapInt`).
* A Go `error` is an `Option String`: `none` is `nil`, `some m` is an error
  whose `Error()` text is `m`.  A `*client.Results` is an `Option Results`.
* Panics are values of `Panic`; a function that may panic returns `Except`.
  An unrecovered panic in any goroutine ends the process.
* The outside world (URL parser, client library, clock, random source,
  goroutine scheduler) is an `Env`.  `rand.Intn(n)` takes the next raw draw
  modulo `n`, so every value of `[0, n)` is a possible outcome.
* `sync.WaitGroup` keeps its counter in an `int32`: `Add(delta)` adds the low
  32 bits of `delta` and panics when the counter becomes negative, `Done()`
  is `Add(-1)`, and `Wait()` returns once the counter is zero.
* Goroutines run concurrently with the loop.  A started goroutine runs as one
  step (log line, write, check of the result, deferred `wg.Done()`), at a
  time the scheduler of the `Env` chooses: after any loop iteration, in any
  order, or while `main` blocks in `wg.Wait()`.
* The `for` loop runs on fuel: one unit per iteration.  A run that still is
  inside the loop when the fuel ends is reported as `Exit.running` together
  with the state reached so far.
-/

namespace Loader

/-! ## Machine integers -/

/-- Width of Go's `int`: 32 or 64 bits depending on the platform. -/
inductive IntSize where
  | w32
  | w64
  deriving DecidableEq, Repr

/-- Number of bits of an `int`. -/
def IntSize.bits : IntSize → Nat
  | .w32 => 32
  | .w64 => 64

/-- Largest `int`. -/
def maxInt (sz : IntSize) : Int := 2 ^ (sz.bits - 1) - 1

/-- Smallest `int`. -/
def minInt (sz : IntSize) : Int := -(2 ^ (sz.bits - 1))

/-- Two's-complement wrap-around of an exact result into the `int` range. -/
def wrapInt (sz : IntSize) (x : Int) : Int := Int.bmod x (2 ^ sz.bits)

/-- Run-time panics the program can raise. -/
inductive Panic where
  /-- Message `runtime error: integer divide by zero`. -/
  | divideByZero
  /-- Message `runtime error: slice bounds out of range`. -/
  | sliceBounds
  /-- Message `invalid memory address or nil pointer dereference`. -/
  | nilDereference
  /-- Message `sync: negative WaitGroup counter`. -/
  | negativeCounter
  /-- An explicit `panic(msg)` statement. -/
  | explicit (msg : String)
  deriving DecidableEq, Repr

/-- Go's `a / b` on `int`: truncates toward zero, panics on a zero divisor,
wraps on overflow (`minInt / -1`). -/
def goDiv (sz : IntSize) (a b : Int) : Except Panic Int :=
  if b = 0 then .error .divideByZero else .ok (wrapInt sz (Int.tdiv a b))

/-- Go's `a % b` on `int`: sign of the dividend, panics on a zero divisor. -/
def goMod (a b : Int) : Except Panic Int :=
  if b = 0 then .error .divideByZero else .ok (Int.tmod a b)

/-! ## Data -/

/-- The `Config` struct filled in by the flag set. -/
structure Config where
  Database : String
  Host : String
  Tags : Int
  Values : Int
  Rows : Int
  BatchSize : Int
  deriving DecidableEq, Repr

/-- A Go `map[string]string`, as an association list without repeated keys. -/
abbrev TagMap := List (String × String)

/-- Assignment `m[k] = v`. -/
def TagMap.set (m : TagMap) (k v : String) : TagMap :=
  if m.any (fun kv => kv.1 == k) then
    m.map (fun kv => if kv.1 == k then (k, v) else kv)
  else m ++ [(k, v)]

/-- The keys of a map. -/
def TagMap.keys (m : TagMap) : List String := m.map Prod.fst

/-- Result of `randFloat(min, max)` on the raw draw `sample`; the float
arithmetic `sample * (max - min) + min` is kept symbolic. -/
structure RandFloat where
  min : Int
  max : Int
  sample : Nat
  deriving DecidableEq, Repr

/-- A `client.Point`. -/
structure Point where
  Name : String
  Timestamp : Int
  Tags : TagMap
  Fields : List (String × RandFloat)
  deriving DecidableEq, Repr

/-- A `client.BatchPoints`. -/
structure BatchPoints where
  Database : String
  Points : List Point
  deriving DecidableEq, Repr

/-- What `r.Error()` returns for a non-nil `*client.Results`. -/
structure Results where
  Err : Option String
  deriving DecidableEq, Repr

/-- Lines written with `log.Printf`. -/
inductive LogLine where
  | errParsingHost (host e : String)
  | errCreatingClient (e : String)
  | errCreatingDatabase (e : String)
  | inserting (rows batch : Int)
  | errWritingPoint (e : String)
  deriving DecidableEq, Repr

/-- The outside world as seen by `main`. -/
structure Env where
  /-- Text of `influxdb.ErrDatabaseExists.Error()`. -/
  ErrDatabaseExists : String
  /-- Error returned by `url.Parse(host)`. -/
  urlParse : String → Option String
  /-- Error returned by `client.NewClient` for the parsed host. -/
  newClient : String → Option String
  /-- Pair `(r, e)` returned by `cl.Query` for a command. -/
  query : String → Option Results × Option String
  /-- Reading of `time.Now()` at its `k`-th call. -/
  now : Nat → Int
  /-- Raw outcome of the `k`-th draw from the global random source. -/
  rand : Nat → Nat
  /-- Pair `(r, e)` returned by `cl.Write` in the goroutine started as number
  `k` (counted from 0). -/
  write : Nat → Option Results × Option String
  /-- Scheduler, during the loop: the goroutines that run after iteration
  `t` (counted from 0), each given by its position among the goroutines
  started and not yet run; a position that does not exist is skipped. -/
  sched : Nat → List Nat
  /-- Scheduler, while `main` blocks in `wg.Wait()`: the `j`-th goroutine to
  run is at position `waitSched j` modulo the number of goroutines left. -/
  waitSched : Nat → Nat

/-! ## `Tags` and `randomTags` -/

/-- The literal `tagNames`. -/
def tagNames : List String := ["region", "row", "rack", "slot", "host"]

/-- `Tags(size)`: the slice expression `tagNames[:size]`, which panics unless
`0 <= size <= cap(tagNames) = 5`. -/
def Tags (size : Int) : Except Panic (List String) :=
  if 0 ≤ size ∧ size ≤ (tagNames.length : Int) then .ok (tagNames.take size.toNat)
  else .error .sliceBounds

/-- The literal `r` of the `region` case. -/
def regions : List String := ["uswest", "useast", "europe", "asia"]

/-- `rand.Intn(n)` at position `pos` of the random source. -/
def Intn (env : Env) (pos : Nat) (n : Nat) : Nat := env.rand pos % n

/-- One iteration of the `range tags` loop of `randomTags`: the `switch`
sets the key for a known name and does nothing for any other name. -/
def randomTagsStep (env : Env) (acc : TagMap × Nat) (t : String) : TagMap × Nat :=
  if t = "region" then
    (acc.1.set t (regions.getD (Intn env acc.2 regions.length) ""), acc.2 + 1)
  else if t = "row" then
    (acc.1.set t (toString (Intn env acc.2 25)), acc.2 + 1)
  else if t = "rack" then
    (acc.1.set t (toString (Intn env acc.2 50)), acc.2 + 1)
  else if t = "slot" then
    (acc.1.set t (toString (Intn env acc.2 100)), acc.2 + 1)
  else if t = "host" then
    (acc.1.set t ("server" ++ toString (Intn env acc.2 1000)), acc.2 + 1)
  else acc

/-- `randomTags(tags)` started at position `pos` of the random source;
returns the map and the next position. -/
def randomTags (env : Env) (pos : Nat) (tags : List String) : TagMap × Nat :=
  tags.foldl (randomTagsStep env) ([], pos)

/-- `randFloat(min, max)` at position `pos` of the random source. -/
def randFloat (env : Env) (pos : Nat) (min max : Int) : RandFloat :=
  ⟨min, max, env.rand pos⟩

/-! ## Point generation -/

/-- Progress of the two external sources read while points are built: the
number of `time.Now()` calls and of random draws made so far. -/
structure GenState where
  clock : Nat
  pos : Nat
  deriving DecidableEq, Repr

/-- The composite literal `client.Point{...}` of the loop body, evaluated
field by field: `time.Now()`, `randomTags(tags)`, `randFloat(0, 1000)`. -/
def newPoint (env : Env) (tags : List String) (g : GenState) : Point × GenState :=
  let ts := env.now g.clock
  let tm := randomTags env g.pos tags
  let v := randFloat env tm.2 0 1000
  ({ Name := "p1", Timestamp := ts, Tags := tm.1, Fields := [("v1", v)] },
   { clock := g.clock + 1, pos := tm.2 + 1 })

/-! ## The batching loop -/

/-- Arguments of one `go func(points, i)` statement. -/
structure Batch where
  points : List Point
  i : Int
  deriving DecidableEq, Repr

/-- Variables of the `for` loop: the counter `i`, the slice `points`, the
goroutines started so far (oldest first) and the progress of the sources. -/
structure LoopState where
  i : Int
  points : List Point
  spawned : List Batch
  gen : GenState
  deriving DecidableEq, Repr

/-- One pass through the loop body followed by the post statement `i++`.
A panic of `len(points) % BatchSize` is returned with the state at that
point. -/
def loopBody (sz : IntSize) (cfg : Config) (env : Env) (tags : List String)
    (s : LoopState) : Except (Panic × LoopState) LoopState :=
  let pg := newPoint env tags s.gen
  let points := s.points ++ [pg.1]
  match goMod (points.length : Int) cfg.BatchSize with
  | .error e => .error (e, { s with points := points, gen := pg.2 })
  | .ok m =>
    if m = 0 then
      .ok { i := wrapInt sz (s.i + 1), points := [],
            spawned := s.spawned ++ [⟨points, s.i⟩], gen := pg.2 }
    else
      .ok { i := wrapInt sz (s.i + 1), points := points,
            spawned := s.spawned, gen := pg.2 }

/-- State on entry to the loop: `i := 1`, `points` nil. -/
def initLoop : LoopState :=
  { i := 1, points := [], spawned := [], gen := ⟨0, 0⟩ }

/-! ## The wait group -/

/-- The call `wg.Add(delta)` on a counter: the counter is an `int32`, the
sum wraps to 32 bits, and `Add` panics when the new counter is negative. -/
def wgAddTo (counter delta : Int) : Except Panic Int :=
  if wrapInt .w32 (counter + delta) < 0 then .error .negativeCounter
  else .ok (wrapInt .w32 (counter + delta))

/-! ## The goroutine of one batch -/

/-- Calls registered with `defer`. -/
inductive Deferred where
  /-- The statement `defer wg.Done()`. -/
  | wgDone
  deriving DecidableEq, Repr

/-- What the body of a batch goroutine did. -/
structure BodyRun where
  /-- Calls deferred by the body, last one first. -/
  deferred : List Deferred
  log : List LogLine
  /-- Arguments of the calls to `cl.Write`. -/
  writes : List BatchPoints
  /-- The panic raised by the body, if any. -/
  panic : Option Panic
  deriving DecidableEq, Repr

/-- Body of the function literal started with `go`; `w` is the pair `(r, e)`
that `cl.Write(bp)` returns.  `defer wg.Done()` is its first statement, so
the call is registered on every path. -/
def workerBody (sz : IntSize) (cfg : Config) (b : Batch)
    (w : Option Results × Option String) : BodyRun :=
  let bp : BatchPoints := { Database := cfg.Database, Points := b.points }
  match goDiv sz b.i cfg.BatchSize with
  | .error p => { deferred := [.wgDone], log := [], writes := [], panic := some p }
  | .ok q =>
    let l0 := LogLine.inserting cfg.BatchSize q
    match w.2 with
    | some e =>
      { deferred := [.wgDone], log := [l0, .errWritingPoint e], writes := [bp],
        panic := some (.explicit "") }
    | none =>
      match w.1 with
      | none => { deferred := [.wgDone], log := [l0], writes := [bp], panic := none }
      | some r =>
        match r.Err with
        | some e =>
          { deferred := [.wgDone], log := [l0, .errWritingPoint e], writes := [bp],
            panic := some (.explicit "") }
        | none => { deferred := [.wgDone], log := [l0], writes := [bp], panic := none }

/-- What one batch goroutine did. -/
structure WorkerRun where
  log : List LogLine
  /-- Arguments of the calls to `cl.Write`. -/
  writes : List BatchPoints
  /-- The panic raised by the body, if any. -/
  bodyPanic : Option Panic
  /-- Number of calls to `wg.Done`. -/
  dones : Nat
  /-- The panic raised by a deferred call, if any. -/
  donePanic : Option Panic
  /-- The wait-group counter the goroutine leaves. -/
  counter : Int
  deriving DecidableEq, Repr

/-- The deferred calls, run when the body ends, by return or by panic:
`wg.Done()` is `wg.Add(-1)`.  The triple is the number of `Done` calls, the
first panic of a deferred call and the counter. -/
def runDeferred : List Deferred → Nat × Option Panic × Int → Nat × Option Panic × Int
  | [], acc => acc
  | .wgDone :: ds, acc =>
    match wgAddTo acc.2.2 (-1) with
    | .ok c => runDeferred ds (acc.1 + 1, acc.2.1, c)
    | .error e =>
      runDeferred ds (acc.1 + 1, acc.2.1.orElse (fun _ => some e),
        wrapInt .w32 (acc.2.2 - 1))

/-- The goroutine of one batch, run with the wait-group counter at
`counter`: the body, then the deferred calls. -/
def worker (sz : IntSize) (cfg : Config) (b : Batch)
    (w : Option Results × Option String) (counter : Int) : WorkerRun :=
  let r := workerBody sz cfg b w
  let d := runDeferred r.deferred (0, none, counter)
  { log := r.log, writes := r.writes, bodyPanic := r.panic,
    dones := d.1, donePanic := d.2.1, counter := d.2.2 }

/-- The panic that ends the goroutine, and with it the process: the panic
of the body, or else the panic of a deferred call. -/
def WorkerRun.firstPanic (r : WorkerRun) : Option Panic :=
  r.bodyPanic.orElse (fun _ => r.donePanic)

/-! ## The process: the loop and the goroutines -/

/-- The wait group and the goroutines: the counter, the goroutines started
and not yet run (number, batch), and the goroutines that have run (number,
what they did), in the order in which they ran. -/
structure Pool where
  counter : Int
  ready : List (Nat × Batch)
  done : List (Nat × WorkerRun)
  deriving DecidableEq, Repr

/-- The pool after the goroutine at position `p` of `ready`, which is `kb`,
has run. -/
def Pool.ran (sz : IntSize) (cfg : Config) (env : Env) (pl : Pool) (p : Nat)
    (kb : Nat × Batch) : Pool :=
  { counter := (worker sz cfg kb.2 (env.write kb.1) pl.counter).counter,
    ready := pl.ready.eraseIdx p,
    done := pl.done ++ [(kb.1, worker sz cfg kb.2 (env.write kb.1) pl.counter)] }

/-- The scheduler lets the goroutines at the given positions run, one after
the other; a panic of one of them ends the process. -/
def runPicks (sz : IntSize) (cfg : Config) (env : Env) :
    List Nat → Pool → Except (Panic × Pool) Pool
  | [], pl => .ok pl
  | p :: ps, pl =>
    match pl.ready[p]? with
    | none => runPicks sz cfg env ps pl
    | some kb =>
      match (worker sz cfg kb.2 (env.write kb.1) pl.counter).firstPanic with
      | some e => .error (e, pl.ran sz cfg env p kb)
      | none => runPicks sz cfg env ps (pl.ran sz cfg env p kb)

/-- The goroutines started by one pass through the loop body: the batches
the pass added to `spawned`, numbered in the order of the `go` statements. -/
def started (old new : LoopState) : List (Nat × Batch) :=
  (new.spawned.drop old.spawned.length).enumFrom old.spawned.length

/-- State of the process inside the loop. -/
structure ProcState where
  loop : LoopState
  pool : Pool
  deriving DecidableEq, Repr

/-- How a run of the loop ends. -/
inductive LoopResult where
  /-- The condition `i <= Rows` became false. -/
  | finished (s : ProcState)
  /-- The fuel ran out while the condition still had to be tested. -/
  | running (s : ProcState)
  /-- The body, or a goroutine, panicked. -/
  | panicked (p : Panic) (s : ProcState)
  deriving DecidableEq, Repr

/-- The loop `for i := 1; i <= config.Rows; i++`, at most `fuel` iterations
from iteration `t` on, with the goroutines the scheduler runs after each
iteration. -/
def runLoop (sz : IntSize) (cfg : Config) (env : Env) (tags : List String) :
    Nat → Nat → ProcState → LoopResult
  | 0, _, s => .running s
  | fuel + 1, t, s =>
    if s.loop.i ≤ cfg.Rows then
      match loopBody sz cfg env tags s.loop with
      | .error ps => .panicked ps.1 { s with loop := ps.2 }
      | .ok l1 =>
        match runPicks sz cfg env (env.sched t)
            { s.pool with ready := s.pool.ready ++ started s.loop l1 } with
        | .error ep => .panicked ep.1 ⟨l1, ep.2⟩
        | .ok pl => runLoop sz cfg env tags fuel (t + 1) ⟨l1, pl⟩
    else .finished s

/-! ## `main` -/

/-- How the process ends. -/
inductive Exit where
  /-- Early `return` of `main` after a setup error. -/
  | returned
  /-- A goroutine, `main` or the goroutine of a batch, panicked. -/
  | panicked (p : Panic)
  /-- The call `wg.Wait()` returned and `main` returned after it. -/
  | completed
  /-- The call `wg.Wait()` can never return: the counter is not zero and no
  batch goroutine is left to run (`main` stays blocked, or the Go runtime
  reports the deadlock and ends the process). -/
  | deadlock
  /-- The fuel ran out inside the loop. -/
  | running
  deriving DecidableEq, Repr

/-- The call `wg.Wait()`: it returns when the counter is zero; until then
the goroutines left run one at a time, in the order the scheduler chooses.
`fuel` is the number of goroutines left. -/
def waitLoop (sz : IntSize) (cfg : Config) (env : Env) : Nat → Nat → Pool → Exit × Pool
  | 0, _, pl => if pl.counter = 0 then (.completed, pl) else (.deadlock, pl)
  | fuel + 1, j, pl =>
    if pl.counter = 0 then (.completed, pl)
    else
      match pl.ready[env.waitSched j % pl.ready.length]? with
      | none => (.deadlock, pl)
      | some kb =>
        match (worker sz cfg kb.2 (env.write kb.1) pl.counter).firstPanic with
        | some e => (.panicked e, pl.ran sz cfg env (env.waitSched j % pl.ready.length) kb)
        | none =>
          waitLoop sz cfg env fuel (j + 1)
            (pl.ran sz cfg env (env.waitSched j % pl.ready.length) kb)

/-- Observable record of a run of the process. -/
structure MainRun where
  exit : Exit
  /-- Lines logged by `main` itself. -/
  log : List LogLine
  /-- Argument of `wg.Add`, once it has been called. -/
  wgAdd : Option Int
  /-- Number of points built. -/
  generated : Nat
  /-- Content of `points` at the end. -/
  pending : List Point
  /-- Batches handed to a goroutine, oldest first. -/
  spawned : List Batch
  /-- The wait-group counter at the end. -/
  counter : Int
  /-- Goroutines started that never ran. -/
  ready : List (Nat × Batch)
  /-- Goroutines that ran, in the order in which they ran. -/
  workers : List (Nat × WorkerRun)
  deriving DecidableEq, Repr

/-- A run that stops before the wait group is set up. -/
def stopEarly (e : Exit) (log : List LogLine) : MainRun :=
  { exit := e, log := log, wgAdd := none, generated := 0, pending := [], spawned := [],
    counter := 0, ready := [], workers := [] }

/-- The record of a run that got into the loop. -/
def record (e : Exit) (delta : Int) (l : LoopState) (pl : Pool) : MainRun :=
  { exit := e, log := [], wgAdd := some delta, generated := l.gen.clock,
    pending := l.points, spawned := l.spawned,
    counter := pl.counter, ready := pl.ready, workers := pl.done }

/-- The part of `main` from `Tags(config.Tags)` to the return after
`wg.Wait()`. -/
def writePhase (sz : IntSize) (cfg : Config) (env : Env) (fuel : Nat) : MainRun :=
  match Tags cfg.Tags with
  | .error p => stopEarly (.panicked p) []
  | .ok tags =>
    match goDiv sz cfg.Rows cfg.BatchSize with
    | .error p => stopEarly (.panicked p) []
    | .ok delta =>
      match wgAddTo 0 delta with
      | .error p =>
        { stopEarly (.panicked p) [] with wgAdd := some delta, counter := wrapInt .w32 delta }
      | .ok c =>
        match runLoop sz cfg env tags fuel 0 ⟨initLoop, ⟨c, [], []⟩⟩ with
        | .finished s =>
          record (waitLoop sz cfg env s.pool.ready.length 0 s.pool).1 delta s.loop
            (waitLoop sz cfg env s.pool.ready.length 0 s.pool).2
        | .running s => record .running delta s.loop s.pool
        | .panicked p s => record (.panicked p) delta s.loop s.pool

/-- The test `e != nil && e.Error() != influxdb.ErrDatabaseExists.Error()`. -/
def otherError (env : Env) (e : Option String) : Option String :=
  match e with
  | some m => if m ≠ env.ErrDatabaseExists then some m else none
  | none => none

/-- The function `main`, from the parsed configuration on (`spew.Dump` and
`time.Sleep` change nothing that is recorded here).  `r.Error()` is called
on the pointer returned by `cl.Query` without a nil test, so a nil `r` ends
in a nil-pointer panic; the goroutine of a batch tests `r != nil` first.
The run is that of the whole process: it also ends when a batch goroutine
panics. -/
def main (sz : IntSize) (cfg : Config) (env : Env) (fuel : Nat) : MainRun :=
  match env.urlParse cfg.Host with
  | some e => stopEarly .returned [.errParsingHost cfg.Host e]
  | none =>
    match env.newClient cfg.Host with
    | some e => stopEarly .returned [.errCreatingClient e]
    | none =>
      let re := env.query ("create database " ++ cfg.Database)
      match otherError env re.2 with
      | some m => stopEarly .returned [.errCreatingDatabase m]
      | none =>
        match re.1 with
        | none => stopEarly (.panicked .nilDereference) []
        | some r =>
          match otherError env r.Err with
          | some m => stopEarly .returned [.errCreatingDatabase m]
          | none => writePhase sz cfg env fuel

/-! ## Auxiliary definitions used in the statements -/

/-- Whether the setup steps of `main` all pass: the host parses, the client
is created, `cl.Query` returns a non-nil result, and neither its error nor
the result's error is an error other than already-exists. -/
def setupPasses (cfg : Config) (env : Env) : Bool :=
  (env.urlParse cfg.Host).isNone && (env.newClient cfg.Host).isNone &&
  (otherError env (env.query ("create database " ++ cfg.Database)).2).isNone &&
  (match (env.query ("create database " ++ cfg.Database)).1 with
   | some r => (otherError env r.Err).isNone
   | none => false)

/-- State of the two sources after `n` points have been built. -/
def genAfter (env : Env) (tags : List String) : Nat → GenState
  | 0 => ⟨0, 0⟩
  | n + 1 => (newPoint env tags (genAfter env tags n)).2

/-- The point built at iteration `j + 1` of the loop. -/
def pointAt (env : Env) (tags : List String) (j : Nat) : Point :=
  (newPoint env tags (genAfter env tags j)).1

/-- The points built at iterations `k * b + 1` through `k * b + len`. -/
def block (env : Env) (tags : List String) (b k len : Nat) : List Point :=
  (List.range len).map (fun t => pointAt env tags (k * b + t))

/-- Closed form of the batch spawned as number `k` (counted from 0) with
batch size `b`. -/
def batchAt (sz : IntSize) (env : Env) (tags : List String) (b k : Nat) : Batch :=
  ⟨block env tags b k b, wrapInt sz (((k + 1) * b : Nat) : Int)⟩

/-- Closed form of the loop state after `n` iterations with batch size `b`. -/
def stateAfter (sz : IntSize) (env : Env) (tags : List String) (b n : Nat) : LoopState :=
  { i := wrapInt sz ((n : Int) + 1),
    points := block env tags b (n / b) (n % b),
    spawned := (List.range (n / b)).map (batchAt sz env tags b),
    gen := genAfter env tags n }

/-- Invariant of the wait group and the goroutines while at most `D`
goroutines have been started, `D` being the count given to `wg.Add`: the
counter is `D` less the goroutines that ran; the goroutines started are
numbers `0` to `cnt - 1`, each either waiting to run or run once; each
carries the batch of its number; each that ran found a positive counter. -/
def PoolInv (sz : IntSize) (cfg : Config) (env : Env) (tags : List String)
    (b D cnt : Nat) (pl : Pool) : Prop :=
  pl.counter + (pl.done.length : Int) = (D : Int) ∧
  (pl.ready.map Prod.fst ++ pl.done.map Prod.fst).Perm (List.range cnt) ∧
  (∀ kb ∈ pl.ready, kb.2 = batchAt sz env tags b kb.1) ∧
  (∀ kr ∈ pl.done, ∃ c : Int, 0 < c ∧ c ≤ (D : Int) ∧
    kr.2 = worker sz cfg (batchAt sz env tags b kr.1) (env.write kr.1) c)

/-- Whether the write of goroutine number `k` succeeds: a nil error and a
nil or error-free result. -/
def writeOk (env : Env) (k : Nat) : Prop :=
  (env.write k).2 = none ∧ ∀ r, (env.write k).1 = some r → r.Err = none

/-! ## Concrete inputs -/

/-- An environment in which every setup step and every write succeeds; no
goroutine runs before `wg.Wait()`, where they run oldest first. -/
def envOk : Env :=
  { ErrDatabaseExists := "database exists",
    urlParse := fun _ => none,
    newClient := fun _ => none,
    query := fun _ => (some ⟨none⟩, none),
    now := fun k => (k : Int),
    rand := fun k => k,
    write := fun _ => (none, none),
    sched := fun _ => [],
    waitSched := fun _ => 0 }

/-- The default configuration with the given `-tags`, `-rows` and `-batch`. -/
def cfgOf (tags rows batch : Int) : Config :=
  { Database := "test_load_database", Host := "http://localhost:8086",
    Tags := tags, Values := 1, Rows := rows, BatchSize := batch }

/-- An environment whose `cl.Query` returns a nil result together with the
already-exists error. -/
def envExistsNil : Env :=
  { envOk with query := fun _ => (none, some "database exists") }

/-- An environment whose `cl.Query` returns an error-free result together
with the already-exists error. -/
def envExists : Env :=
  { envOk with query := fun _ => (some ⟨none⟩, some "database exists") }

/-- An environment whose host does not parse. -/
def envBadHost : Env :=
  { envOk with urlParse := fun _ => some "invalid URL" }

/-- As `envOk`, but every goroutine runs right after the iteration that
started it. -/
def envEager : Env :=
  { envOk with sched := fun _ => [0] }

/-- As `envEager`, but every write fails with a timeout. -/
def envFailing : Env :=
  { envEager with write := fun _ => (none, some "timeout") }

/-- The largest 32-bit row count with batch size 1024. -/
def cfgMax32 : Config := cfgOf 0 2147483647 1024

theorem wrapInt_of_inRange (sz : IntSize) (x : Int) (h1 : minInt sz ≤ x) (h2 : x ≤ maxInt sz) :
    wrapInt sz x = x := by
  cases sz <;> simp only [wrapInt, IntSize.bits, minInt, maxInt, Int.bmod_def] at * <;>
    norm_num at * <;> omega

theorem wrapInt_succ (sz : IntSize) (x : Int) :
    wrapInt sz (wrapInt sz x + 1) = wrapInt sz (x + 1) := by
  simp only [wrapInt]
  exact Int.bmod_add_bmod_congr

theorem wrapInt_le_max (sz : IntSize) (x : Int) : wrapInt sz x ≤ maxInt sz := by
  cases sz <;> simp only [wrapInt, IntSize.bits, minInt, maxInt, Int.bmod_def] at * <;>
    norm_num at * <;> omega

theorem minInt_neg (sz : IntSize) : minInt sz < 0 := by
  cases sz <;> simp [minInt, IntSize.bits]

theorem goDiv_natCast (sz : IntSize) (n b : Nat) (hb : 0 < b) (hmax : (n : Int) ≤ maxInt sz) :
    goDiv sz (n : Int) (b : Int) = .ok (((n / b : Nat) : Int)) := by
  have hb' : (b : Int) ≠ 0 := by omega
  have hle : n / b ≤ n := Nat.div_le_self n b
  have hnn : (0 : Int) ≤ ((n / b : Nat) : Int) := Int.natCast_nonneg _
  have := minInt_neg sz
  rw [goDiv, if_neg hb', ← Int.ofNat_tdiv, wrapInt_of_inRange sz _ (by omega) (by omega)]

theorem succ_div_mod (b n : Nat) (hb : 0 < b) :
    (n % b + 1 = b ∧ (n + 1) / b = n / b + 1 ∧ (n + 1) % b = 0 ∧ (n / b + 1) * b = n + 1) ∨
    (n % b + 1 < b ∧ (n + 1) / b = n / b ∧ (n + 1) % b = n % b + 1) := by
  have hlt : n % b < b := Nat.mod_lt _ hb
  have hdm : b * (n / b) + n % b = n := Nat.div_add_mod n b
  generalize n / b = q at *
  generalize n % b = r at *
  subst hdm
  have e1 : b * q + r + 1 = b * q + (r + 1) := by omega
  rcases Nat.lt_or_ge (r + 1) b with h | h
  · right
    refine ⟨h, ?_, ?_⟩
    · rw [e1, Nat.mul_add_div hb, Nat.div_eq_of_lt h]; rfl
    · rw [e1, Nat.mul_add_mod, Nat.mod_eq_of_lt h]
  · left
    have hrb : r + 1 = b := by omega
    have e2 : b * q + r + 1 = b * (q + 1) := by rw [Nat.mul_add]; omega
    refine ⟨hrb, ?_, ?_, ?_⟩
    · rw [e2, Nat.mul_div_cancel_left _ hb]
    · rw [e2, Nat.mul_mod_right]
    · rw [e2, Nat.mul_comm]

theorem block_succ (env : Env) (tags : List String) (b k len : Nat) :
    block env tags b k (len + 1)
      = block env tags b k len ++ [pointAt env tags (k * b + len)] := by
  simp [block, List.range_succ]

theorem join_blocks (env : Env) (tags : List String) (b m : Nat) :
    ((List.range m).map (fun k => block env tags b k b)).flatten
      = (List.range (m * b)).map (pointAt env tags) := by
  induction m with
  | zero => simp
  | succ m ih =>
    rw [List.range_succ, List.map_append, List.flatten_append, ih, Nat.add_mul, Nat.one_mul,
      List.range_add, List.map_append]
    simp [block]

theorem genAfter_clock (env : Env) (tags : List String) (n : Nat) :
    (genAfter env tags n).clock = n := by
  induction n with
  | zero => rfl
  | succ n ih => simp [genAfter, newPoint, ih]

theorem stateAfter_zero (sz : IntSize) (env : Env) (tags : List String) (b : Nat) :
    stateAfter sz env tags b 0 = initLoop := by
  have h : wrapInt sz 1 = 1 := by
    apply wrapInt_of_inRange <;> cases sz <;> simp [minInt, maxInt, IntSize.bits]
  simp [stateAfter, initLoop, block, genAfter, h]

theorem stateAfter_i (sz : IntSize) (env : Env) (tags : List String) (b j : Nat)
    (h : (j : Int) < maxInt sz) : (stateAfter sz env tags b j).i = (j : Int) + 1 := by
  have := minInt_neg sz
  exact wrapInt_of_inRange sz _ (by omega) (by omega)

theorem loopBody_stateAfter (sz : IntSize) (cfg : Config) (env : Env) (tags : List String)
    (b n : Nat) (hb : 0 < b) (hB : cfg.BatchSize = (b : Int)) :
    loopBody sz cfg env tags (stateAfter sz env tags b n)
      = .ok (stateAfter sz env tags b (n + 1)) := by
  have hlen : (stateAfter sz env tags b n).points.length = n % b := by
    simp [stateAfter, block]
  have hmod : goMod (((stateAfter sz env tags b n).points
      ++ [(newPoint env tags (stateAfter sz env tags b n).gen).1]).length : Int) cfg.BatchSize
      = .ok (((n % b + 1) % b : Nat) : Int) := by
    have hb' : (b : Int) ≠ 0 := by omega
    rw [hB]
    simp only [goMod, if_neg hb', List.length_append, hlen, List.length_singleton]
    congr 1
  have hdm : n / b * b + n % b = n := by rw [Nat.mul_comm]; exact Nat.div_add_mod n b
  have hpt : (newPoint env tags (genAfter env tags n)).1
      = pointAt env tags (n / b * b + n % b) := by rw [hdm]; rfl
  simp only [loopBody, hmod]
  rcases succ_div_mod b n hb with ⟨heq, hq, hr, hm⟩ | ⟨hlt2, hq, hr⟩
  · have hfull : (((n % b + 1) % b : Nat) : Int) = 0 := by rw [heq, Nat.mod_self]; rfl
    rw [if_pos hfull]
    have hblk : block env tags b (n / b) b
        = block env tags b (n / b) (n % b) ++ [pointAt env tags (n / b * b + n % b)] := by
      rw [← block_succ, heq]
    simp only [stateAfter, batchAt, hq, hr, wrapInt_succ, genAfter, List.range_succ,
      List.map_append, List.map_singleton, hblk, hm, hpt, Nat.cast_add, Nat.cast_one]
    rfl
  · have hfull : ¬ (((n % b + 1) % b : Nat) : Int) = 0 := by
      rw [Nat.mod_eq_of_lt hlt2]; omega
    rw [if_neg hfull]
    simp only [stateAfter, hq, hr, wrapInt_succ, genAfter, block_succ, hpt, Nat.cast_add,
      Nat.cast_one]

theorem loopBody_ok_of_ne_zero (sz : IntSize) (cfg : Config) (env : Env) (tags : List String)
    (s : LoopState) (hB : cfg.BatchSize ≠ 0) :
    ∃ s1, loopBody sz cfg env tags s = .ok s1 := by
  simp only [loopBody, goMod, if_neg hB]
  split <;> exact ⟨_, rfl⟩

theorem Tags_ok {size : Int} (h0 : 0 ≤ size) (h5 : size ≤ 5) :
    Tags size = .ok (tagNames.take size.toNat) := by
  simp [Tags, tagNames, h0, h5]

theorem exists_nat_rows (cfg : Config) (h0 : 0 ≤ cfg.Rows) (hB : 1 ≤ cfg.BatchSize) :
    ∃ n b : Nat, cfg.Rows = (n : Int) ∧ cfg.BatchSize = (b : Int) ∧ 0 < b ∧
      cfg.Rows.toNat = n ∧ cfg.BatchSize.toNat = b ∧
      cfg.Rows / cfg.BatchSize = ((n / b : Nat) : Int) ∧
      cfg.Rows % cfg.BatchSize = ((n % b : Nat) : Int) := by
  obtain ⟨n, hn⟩ := Int.eq_ofNat_of_zero_le h0
  obtain ⟨b, hb⟩ := Int.eq_ofNat_of_zero_le (show 0 ≤ cfg.BatchSize by omega)
  refine ⟨n, b, hn, hb, by omega, by omega, by omega, ?_, ?_⟩
  · rw [hn, hb]; exact (Int.natCast_div n b).symm
  · rw [hn, hb]; exact (Int.natCast_mod n b).symm

theorem stateAfter_points_flatten (sz : IntSize) (env : Env) (tags : List String) (b n : Nat) :
    ((stateAfter sz env tags b n).spawned.map (fun x => x.points)).flatten
      = (List.range (n / b * b)).map (pointAt env tags) := by
  rw [← join_blocks]
  simp [stateAfter, batchAt, Function.comp_def]

theorem batchAt_i (sz : IntSize) (env : Env) (tags : List String) (b k n : Nat)
    (h : (k + 1) * b ≤ n) (hmax : (n : Int) < maxInt sz) :
    batchAt sz env tags b k = ⟨block env tags b k b, (((k + 1) * b : Nat) : Int)⟩ := by
  have := minInt_neg sz
  simp only [batchAt]
  rw [wrapInt_of_inRange sz _ (by omega) (by omega)]

theorem started_stateAfter (sz : IntSize) (env : Env) (tags : List String) (b n : Nat)
    (hb : 0 < b) :
    started (stateAfter sz env tags b n) (stateAfter sz env tags b (n + 1))
      = if (n + 1) / b = n / b + 1 then [(n / b, batchAt sz env tags b (n / b))] else [] := by
  rcases succ_div_mod b n hb with ⟨_, hq, _, _⟩ | ⟨_, hq, _⟩
  · simp [started, stateAfter, hq, List.range_succ]
  · simp [started, stateAfter, hq]

/-! ## The wait group and the goroutine of a batch: lemmas -/

theorem wgAddTo_done_pos (c : Int) (h0 : 0 < c) (h1 : c < 2147483648) :
    wgAddTo c (-1) = .ok (c - 1) := by
  have h := wrapInt_of_inRange .w32 (c + -1) (by simp [minInt, IntSize.bits]; omega)
    (by simp [maxInt, IntSize.bits]; omega)
  simp only [wgAddTo, h]
  rw [if_neg (by omega)]
  rfl

theorem wgAddTo_done_zero : wgAddTo 0 (-1) = .error .negativeCounter := by
  rw [wgAddTo, if_pos (by decide)]

theorem wgAddTo_zero_of_lt (d : Int) (h0 : 0 ≤ d) (h1 : d < 2147483648) :
    wgAddTo 0 d = .ok d := by
  have h := wrapInt_of_inRange .w32 (0 + d) (by simp [minInt, IntSize.bits]; omega)
    (by simp [maxInt, IntSize.bits]; omega)
  simp only [wgAddTo, h]
  rw [if_neg (by omega)]
  simp

theorem workerBody_deferred (sz : IntSize) (cfg : Config) (b : Batch)
    (w : Option Results × Option String) :
    (workerBody sz cfg b w).deferred = [.wgDone] := by
  simp only [workerBody]
  split
  · rfl
  · split
    · rfl
    · split
      · rfl
      · split <;> rfl

theorem worker_dones (sz : IntSize) (cfg : Config) (b : Batch)
    (w : Option Results × Option String) (c : Int) :
    (worker sz cfg b w c).dones = 1 := by
  simp only [worker, workerBody_deferred, runDeferred]
  split <;> rfl

theorem worker_done_pos (sz : IntSize) (cfg : Config) (b : Batch)
    (w : Option Results × Option String) (c : Int) (h0 : 0 < c) (h1 : c < 2147483648) :
    (worker sz cfg b w c).donePanic = none ∧ (worker sz cfg b w c).counter = c - 1 := by
  simp only [worker, workerBody_deferred, runDeferred, wgAddTo_done_pos c h0 h1, and_self]

theorem worker_done_zero (sz : IntSize) (cfg : Config) (b : Batch)
    (w : Option Results × Option String) :
    (worker sz cfg b w 0).donePanic = some .negativeCounter := by
  simp only [worker, workerBody_deferred, runDeferred, wgAddTo_done_zero]
  rfl

theorem worker_donePanic_cases (sz : IntSize) (cfg : Config) (b : Batch)
    (w : Option Results × Option String) (c : Int) :
    (worker sz cfg b w c).donePanic = none ∨
      (worker sz cfg b w c).donePanic = some .negativeCounter := by
  simp only [worker, workerBody_deferred, runDeferred, wgAddTo]
  split
  · rename_i h; split at h
    · cases h
    · left; rfl
  · rename_i e h; split at h
    · injection h with h; subst h; right; rfl
    · cases h

/-- For a non-zero batch size the body of a batch goroutine issues exactly
one write and ends normally or with `panic("")`, the latter exactly when the
write reported a failure. -/
theorem worker_body_of_ne_zero (sz : IntSize) (cfg : Config) (b : Batch)
    (w : Option Results × Option String) (c : Int) (hB : cfg.BatchSize ≠ 0) :
    (worker sz cfg b w c).writes = [⟨cfg.Database, b.points⟩] ∧
    ((worker sz cfg b w c).bodyPanic = none ∨
      (worker sz cfg b w c).bodyPanic = some (.explicit "")) ∧
    ((worker sz cfg b w c).bodyPanic ≠ none ↔
      (w.2 ≠ none ∨ ∃ r, w.1 = some r ∧ r.Err ≠ none)) := by
  obtain ⟨r, e⟩ := w
  simp only [worker, workerBody, goDiv, if_neg hB]
  cases e with
  | some e => simp
  | none =>
    cases r with
    | none => simp
    | some r =>
      obtain ⟨err⟩ := r
      cases err <;> simp

theorem worker_log_head (sz : IntSize) (cfg : Config) (b : Batch)
    (w : Option Results × Option String) (c : Int) (q : Int)
    (hq : goDiv sz b.i cfg.BatchSize = .ok q) :
    (worker sz cfg b w c).log.head? = some (.inserting cfg.BatchSize q) := by
  obtain ⟨r, e⟩ := w
  simp only [worker, workerBody, hq]
  cases e with
  | some e => simp
  | none =>
    cases r with
    | none => simp
    | some r =>
      obtain ⟨err⟩ := r
      cases err <;> simp

theorem worker_firstPanic_ok (sz : IntSize) (cfg : Config) (env : Env) (b : Batch) (k : Nat)
    (c : Int) (hB : cfg.BatchSize ≠ 0) (hw : writeOk env k) (h0 : 0 < c)
    (h1 : c < 2147483648) :
    (worker sz cfg b (env.write k) c).firstPanic = none := by
  have hbody := (worker_body_of_ne_zero sz cfg b (env.write k) c hB).2.2
  have hnone : (worker sz cfg b (env.write k) c).bodyPanic = none := by
    by_contra h
    rcases hbody.mp h with h2 | ⟨r, hr, herr⟩
    · exact h2 hw.1
    · exact herr (hw.2 r hr)
  simp [WorkerRun.firstPanic, hnone, (worker_done_pos sz cfg b (env.write k) c h0 h1).1]

theorem worker_firstPanic_ne_divideByZero (sz : IntSize) (cfg : Config) (b : Batch)
    (w : Option Results × Option String) (c : Int) (hB : cfg.BatchSize ≠ 0) :
    (worker sz cfg b w c).firstPanic ≠ some .divideByZero := by
  intro h
  simp only [WorkerRun.firstPanic] at h
  rcases (worker_body_of_ne_zero sz cfg b w c hB).2.1 with hb | hb <;>
    rcases worker_donePanic_cases sz cfg b w c with hd | hd <;>
    rw [hb, hd] at h <;> simp at h

/-! ## The pool: lemmas -/

theorem perm_cons_eraseIdx {α : Type} : ∀ (l : List α) (p : Nat) (x : α),
    l[p]? = some x → l.Perm (x :: l.eraseIdx p)
  | [], p, x, h => by simp at h
  | a :: l, 0, x, h => by
    simp only [List.getElem?_cons_zero, Option.some.injEq] at h
    subst h
    simp
  | a :: l, p + 1, x, h => by
    simp only [List.getElem?_cons_succ] at h
    have ih := perm_cons_eraseIdx l p x h
    simp only [List.eraseIdx_cons_succ]
    exact (List.Perm.cons a ih).trans (List.Perm.swap x a _)

theorem mem_of_getElem_some {α : Type} (l : List α) (p : Nat) (x : α) (h : l[p]? = some x) :
    x ∈ l := by
  obtain ⟨hlt, rfl⟩ := List.getElem?_eq_some_iff.mp h
  exact List.getElem_mem hlt

theorem PoolInv.lengths {sz : IntSize} {cfg : Config} {env : Env} {tags : List String}
    {b D cnt : Nat} {pl : Pool} (h : PoolInv sz cfg env tags b D cnt pl) :
    pl.ready.length + pl.done.length = cnt := by
  have := h.2.1.length_eq
  simpa using this

theorem PoolInv.index_lt {sz : IntSize} {cfg : Config} {env : Env} {tags : List String}
    {b D cnt : Nat} {pl : Pool} (h : PoolInv sz cfg env tags b D cnt pl) :
    (∀ kb ∈ pl.ready, kb.1 < cnt) ∧ (∀ kr ∈ pl.done, kr.1 < cnt) := by
  constructor
  · intro kb hkb
    have : kb.1 ∈ List.range cnt :=
      h.2.1.subset (List.mem_append_left _ (List.mem_map_of_mem _ hkb))
    exact List.mem_range.mp this
  · intro kr hkr
    have : kr.1 ∈ List.range cnt :=
      h.2.1.subset (List.mem_append_right _ (List.mem_map_of_mem _ hkr))
    exact List.mem_range.mp this

/-- Running a started goroutine keeps the invariant, and its `Done` finds a
positive counter. -/
theorem PoolInv.ran {sz : IntSize} {cfg : Config} {env : Env} {tags : List String}
    {b D cnt : Nat} {pl : Pool} (h : PoolInv sz cfg env tags b D cnt pl)
    (hcnt : cnt ≤ D) (hD : (D : Int) < 2147483648) (p : Nat) (kb : Nat × Batch)
    (hkb : pl.ready[p]? = some kb) :
    PoolInv sz cfg env tags b D cnt (pl.ran sz cfg env p kb) ∧
    0 < pl.counter ∧ pl.counter < 2147483648 := by
  have hlen := h.lengths
  have hmem := mem_of_getElem_some _ _ _ hkb
  have hpos : 0 < pl.ready.length := List.length_pos_of_mem hmem
  obtain ⟨hc, hperm, hready, hdone⟩ := h
  have hc0 : 0 < pl.counter := by omega
  have hc1 : pl.counter < 2147483648 := by omega
  have hw := worker_done_pos sz cfg kb.2 (env.write kb.1) pl.counter hc0 hc1
  refine ⟨⟨?_, ?_, ?_, ?_⟩, hc0, hc1⟩
  · simp only [Pool.ran, hw.2, List.length_append, List.length_singleton]
    push_cast
    omega
  · simp only [Pool.ran, List.map_append, List.map_cons, List.map_nil]
    have h1 : (pl.ready.map Prod.fst).Perm (kb.1 :: (pl.ready.eraseIdx p).map Prod.fst) := by
      have := (perm_cons_eraseIdx pl.ready p kb hkb).map Prod.fst
      simpa using this
    refine List.Perm.trans ?_ hperm
    refine List.Perm.trans ?_ (List.Perm.append_right _ h1.symm)
    simp only [List.cons_append]
    rw [← List.append_assoc]
    exact (List.perm_append_singleton _ _)
  · intro x hx
    exact hready x (List.mem_of_mem_eraseIdx hx)
  · intro x hx
    simp only [Pool.ran, List.mem_append, List.mem_singleton] at hx
    rcases hx with hx | rfl
    · exact hdone x hx
    · exact ⟨pl.counter, hc0, by omega, by rw [hready kb hmem]⟩

/-- Starting a goroutine keeps the invariant. -/
theorem PoolInv.spawn {sz : IntSize} {cfg : Config} {env : Env} {tags : List String}
    {b D cnt : Nat} {pl : Pool} (h : PoolInv sz cfg env tags b D cnt pl) :
    PoolInv sz cfg env tags b D (cnt + 1)
      { pl with ready := pl.ready ++ [(cnt, batchAt sz env tags b cnt)] } := by
  obtain ⟨hc, hperm, hready, hdone⟩ := h
  refine ⟨hc, ?_, ?_, hdone⟩
  · simp only [List.map_append, List.map_cons, List.map_nil, List.range_succ]
    rw [List.append_assoc]
    refine List.Perm.trans (List.Perm.append_left _ List.perm_append_comm) ?_
    rw [← List.append_assoc]
    exact List.Perm.append_right _ hperm
  · intro x hx
    simp only [List.mem_append, List.mem_singleton] at hx
    rcases hx with hx | rfl
    · exact hready x hx
    · rfl

/-- The goroutines the scheduler runs keep the invariant; the run ends in a
panic only through a goroutine whose body panicked. -/
theorem runPicks_inv {sz : IntSize} {cfg : Config} {env : Env} {tags : List String}
    {b D cnt : Nat} (hcnt : cnt ≤ D) (hD : (D : Int) < 2147483648) :
    ∀ (picks : List Nat) (pl : Pool), PoolInv sz cfg env tags b D cnt pl →
      (∃ pl1, runPicks sz cfg env picks pl = .ok pl1 ∧ PoolInv sz cfg env tags b D cnt pl1) ∨
      (∃ e pl1, runPicks sz cfg env picks pl = .error (e, pl1) ∧
        PoolInv sz cfg env tags b D cnt pl1 ∧
        ∃ kr ∈ pl1.done, kr.2.firstPanic = some e)
  | [], pl, h => Or.inl ⟨pl, rfl, h⟩
  | p :: ps, pl, h => by
    rw [runPicks]
    cases hkb : pl.ready[p]? with
    | none => exact runPicks_inv hcnt hD ps pl h
    | some kb =>
      have hran := (h.ran hcnt hD p kb hkb).1
      simp only
      cases hfp : (worker sz cfg kb.2 (env.write kb.1) pl.counter).firstPanic with
      | some e =>
        right
        simp only
        refine ⟨e, _, rfl, hran, (kb.1, worker sz cfg kb.2 (env.write kb.1) pl.counter), ?_, hfp⟩
        simp [Pool.ran]
      | none =>
        simp only
        exact runPicks_inv hcnt hD ps _ hran

/-- The loop, when every pass through it keeps an invariant `Inv` of the
pool: the loop variables follow the closed form, whatever the goroutines
do, until the condition fails, the fuel ends or a goroutine panics. -/
theorem runLoop_inv (sz : IntSize) (cfg : Config) (env : Env) (tags : List String)
    (b : Nat) (hb : 0 < b) (hB : cfg.BatchSize = (b : Int))
    (Inv : Nat → Pool → Prop) (Q : Panic → Pool → Prop)
    (hstep : ∀ (m t : Nat) (pl : Pool), Inv m pl →
      (stateAfter sz env tags b m).i ≤ cfg.Rows →
      (∃ pl1, runPicks sz cfg env (env.sched t)
          { pl with ready := pl.ready ++
              started (stateAfter sz env tags b m) (stateAfter sz env tags b (m + 1)) }
            = .ok pl1 ∧ Inv (m + 1) pl1) ∨
      (∃ e pl1, runPicks sz cfg env (env.sched t)
          { pl with ready := pl.ready ++
              started (stateAfter sz env tags b m) (stateAfter sz env tags b (m + 1)) }
            = .error (e, pl1) ∧ Inv (m + 1) pl1 ∧ Q e pl1)) :
    ∀ (fuel n t : Nat) (pl : Pool), Inv n pl →
      ∃ m pl1, n ≤ m ∧ m ≤ n + fuel ∧ Inv m pl1 ∧
        (∀ j, n ≤ j → j < m → (stateAfter sz env tags b j).i ≤ cfg.Rows) ∧
        ((runLoop sz cfg env tags fuel t ⟨stateAfter sz env tags b n, pl⟩
            = .finished ⟨stateAfter sz env tags b m, pl1⟩ ∧
          ¬ (stateAfter sz env tags b m).i ≤ cfg.Rows ∧ m < n + fuel) ∨
         (runLoop sz cfg env tags fuel t ⟨stateAfter sz env tags b n, pl⟩
            = .running ⟨stateAfter sz env tags b m, pl1⟩ ∧ m = n + fuel) ∨
         (∃ e, runLoop sz cfg env tags fuel t ⟨stateAfter sz env tags b n, pl⟩
            = .panicked e ⟨stateAfter sz env tags b m, pl1⟩ ∧ Q e pl1)) := by
  intro fuel
  induction fuel with
  | zero =>
    intro n t pl hI
    exact ⟨n, pl, le_refl n, by omega, hI, fun j h1 h2 => by omega, Or.inr (Or.inl ⟨rfl, rfl⟩)⟩
  | succ f ih =>
    intro n t pl hI
    by_cases hc : (stateAfter sz env tags b n).i ≤ cfg.Rows
    · rcases hstep n t pl hI hc with ⟨pl1, hrun, hI1⟩ | ⟨e, pl1, hrun, hI1, hQ⟩
      · obtain ⟨m, pl2, h1, h2, hI2, hall, hres⟩ := ih (n + 1) (t + 1) pl1 hI1
        have hstepEq : runLoop sz cfg env tags (f + 1) t ⟨stateAfter sz env tags b n, pl⟩
            = runLoop sz cfg env tags f (t + 1) ⟨stateAfter sz env tags b (n + 1), pl1⟩ := by
          rw [runLoop, if_pos hc, loopBody_stateAfter sz cfg env tags b n hb hB]
          simp only [hrun]
        refine ⟨m, pl2, by omega, by omega, hI2, ?_, ?_⟩
        · intro j hj1 hj2
          rcases Nat.eq_or_lt_of_le hj1 with rfl | hlt
          · exact hc
          · exact hall j (by omega) hj2
        · rw [hstepEq]
          rcases hres with ⟨h, hs, hm⟩ | ⟨h, hm⟩ | h
          · exact Or.inl ⟨h, hs, by omega⟩
          · exact Or.inr (Or.inl ⟨h, by omega⟩)
          · exact Or.inr (Or.inr h)
      · refine ⟨n + 1, pl1, by omega, by omega, hI1, ?_, Or.inr (Or.inr ⟨e, ?_, hQ⟩)⟩
        · intro j hj1 hj2
          have : j = n := by omega
          subst this; exact hc
        · rw [runLoop, if_pos hc, loopBody_stateAfter sz cfg env tags b n hb hB]
          simp only [hrun]
    · refine ⟨n, pl, le_refl n, by omega, hI, fun j h1 h2 => by omega,
        Or.inl ⟨?_, hc, by omega⟩⟩
      rw [runLoop, if_neg hc]

/-- While `main` blocks in `wg.Wait()` with as many goroutines started as
were counted, the goroutines left run until the counter is zero, unless the
body of one of them panics. -/
theorem waitLoop_inv {sz : IntSize} {cfg : Config} {env : Env} {tags : List String}
    {b D : Nat} (hD : (D : Int) < 2147483648) :
    ∀ (fuel j : Nat) (pl : Pool), PoolInv sz cfg env tags b D D pl → pl.ready.length ≤ fuel →
      PoolInv sz cfg env tags b D D (waitLoop sz cfg env fuel j pl).2 ∧
      (((waitLoop sz cfg env fuel j pl).1 = .completed ∧
          (waitLoop sz cfg env fuel j pl).2.counter = 0 ∧
          (waitLoop sz cfg env fuel j pl).2.ready = []) ∨
       (∃ e, (waitLoop sz cfg env fuel j pl).1 = .panicked e ∧
          ∃ kr ∈ (waitLoop sz cfg env fuel j pl).2.done, kr.2.firstPanic = some e)) := by
  intro fuel
  induction fuel with
  | zero =>
    intro j pl h hlen
    have hl := h.lengths
    have hc := h.1
    have hr : pl.ready = [] := List.length_eq_zero.mp (by omega)
    have hc0 : pl.counter = 0 := by rw [hr] at hl; simp at hl; omega
    rw [waitLoop, if_pos hc0]
    exact ⟨h, Or.inl ⟨rfl, hc0, hr⟩⟩
  | succ f ih =>
    intro j pl h hlen
    have hl := h.lengths
    have hc := h.1
    rw [waitLoop]
    by_cases hc0 : pl.counter = 0
    · rw [if_pos hc0]
      have hr : pl.ready = [] := List.length_eq_zero.mp (by omega)
      exact ⟨h, Or.inl ⟨rfl, hc0, hr⟩⟩
    · rw [if_neg hc0]
      have hpos : 0 < pl.ready.length := by omega
      have hidx : env.waitSched j % pl.ready.length < pl.ready.length := Nat.mod_lt _ hpos
      obtain ⟨kb, hkb⟩ : ∃ kb, pl.ready[env.waitSched j % pl.ready.length]? = some kb :=
        ⟨_, List.getElem?_eq_getElem hidx⟩
      have hran := (h.ran (le_refl D) hD _ kb hkb).1
      simp only [hkb]
      cases hfp : (worker sz cfg kb.2 (env.write kb.1) pl.counter).firstPanic with
      | some e =>
        refine ⟨hran, Or.inr ⟨e, rfl, (kb.1, worker sz cfg kb.2 (env.write kb.1) pl.counter), ?_, hfp⟩⟩
        simp [Pool.ran]
      | none =>
        have hlen1 : (pl.ran sz cfg env (env.waitSched j % pl.ready.length) kb).ready.length ≤ f := by
          simp only [Pool.ran, List.length_eraseIdx, if_pos hidx]
          omega
        exact ih (j + 1) _ hran hlen1

/-! ## The write phase and the setup: lemmas -/

theorem runPicks_cases (sz : IntSize) (cfg : Config) (env : Env) (picks : List Nat) (pl : Pool) :
    (∃ pl1, runPicks sz cfg env picks pl = .ok pl1) ∨
    (∃ e pl1, runPicks sz cfg env picks pl = .error (e, pl1)) := by
  cases h : runPicks sz cfg env picks pl with
  | ok pl1 => exact Or.inl ⟨pl1, rfl⟩
  | error ep => exact Or.inr ⟨ep.1, ep.2, rfl⟩

/-- The write phase once `Tags`, the division and `wg.Add` have succeeded. -/
theorem writePhase_loop (sz : IntSize) (cfg : Config) (env : Env) (tags : List String) (delta c : Int)
    (htags : Tags cfg.Tags = .ok tags) (hd : goDiv sz cfg.Rows cfg.BatchSize = .ok delta)
    (hadd : wgAddTo 0 delta = .ok c) (fuel : Nat) :
    writePhase sz cfg env fuel =
      match runLoop sz cfg env tags fuel 0 ⟨initLoop, ⟨c, [], []⟩⟩ with
        | .finished s =>
          record (waitLoop sz cfg env s.pool.ready.length 0 s.pool).1 delta s.loop
            (waitLoop sz cfg env s.pool.ready.length 0 s.pool).2
        | .running s => record .running delta s.loop s.pool
        | .panicked p s => record (.panicked p) delta s.loop s.pool := by
  unfold writePhase
  rw [htags]
  simp only
  rw [hd]
  simp only
  rw [hadd]

/-- The write phase when `wg.Add` panics. -/
theorem writePhase_add_error (sz : IntSize) (cfg : Config) (env : Env) (tags : List String)
    (delta : Int) (e : Panic)
    (htags : Tags cfg.Tags = .ok tags) (hd : goDiv sz cfg.Rows cfg.BatchSize = .ok delta)
    (hadd : wgAddTo 0 delta = .error e) (fuel : Nat) :
    writePhase sz cfg env fuel
      = { stopEarly (.panicked e) [] with wgAdd := some delta, counter := wrapInt .w32 delta } := by
  unfold writePhase
  rw [htags]
  simp only
  rw [hd]
  simp only
  rw [hadd]

theorem wgAddTo_cases (c d : Int) :
    (∃ v, wgAddTo c d = .ok v) ∨ wgAddTo c d = .error .negativeCounter := by
  unfold wgAddTo
  split
  · exact Or.inr rfl
  · exact Or.inl ⟨_, rfl⟩

/-- The run of the write phase when the count given to `wg.Add` fits the
counter: `0 <= Rows < maxInt`, `BatchSize >= 1` and `Rows / BatchSize` below
2^31.  After `m` iterations the loop variables follow the closed form and the
pool satisfies its invariant; the process ends by completing, or by the
panic of a goroutine that ran. -/
theorem writePhase_counted (sz : IntSize) (cfg : Config) (env : Env) (tags : List String)
    (b n : Nat) (hb : 0 < b) (hB : cfg.BatchSize = (b : Int)) (hN : cfg.Rows = (n : Int))
    (hmax : (n : Int) < maxInt sz) (hD : ((n / b : Nat) : Int) < 2147483648)
    (htags : Tags cfg.Tags = .ok tags) (fuel : Nat) :
    ∃ m, m ≤ n ∧ m ≤ fuel ∧
      (writePhase sz cfg env fuel).wgAdd = some ((n / b : Nat) : Int) ∧
      (writePhase sz cfg env fuel).log = [] ∧
      (writePhase sz cfg env fuel).generated = m ∧
      (writePhase sz cfg env fuel).pending = block env tags b (m / b) (m % b) ∧
      (writePhase sz cfg env fuel).spawned = (List.range (m / b)).map (batchAt sz env tags b) ∧
      PoolInv sz cfg env tags b (n / b) (m / b)
        ⟨(writePhase sz cfg env fuel).counter, (writePhase sz cfg env fuel).ready,
          (writePhase sz cfg env fuel).workers⟩ ∧
      (((writePhase sz cfg env fuel).exit = .completed ∧ m = n ∧ n < fuel ∧
          (writePhase sz cfg env fuel).counter = 0 ∧ (writePhase sz cfg env fuel).ready = []) ∨
       ((writePhase sz cfg env fuel).exit = .running ∧ m = fuel) ∨
       (∃ e, (writePhase sz cfg env fuel).exit = .panicked e ∧
          ∃ kr ∈ (writePhase sz cfg env fuel).workers, kr.2.firstPanic = some e)) := by
  have hd : goDiv sz cfg.Rows cfg.BatchSize = .ok (((n / b : Nat) : Int)) := by
    rw [hN, hB]; exact goDiv_natCast sz n b hb (le_of_lt hmax)
  have hadd : wgAddTo 0 (((n / b : Nat) : Int)) = .ok (((n / b : Nat) : Int)) :=
    wgAddTo_zero_of_lt _ (Int.natCast_nonneg _) hD
  have hcond : ∀ m, m ≤ n → ((stateAfter sz env tags b m).i ≤ cfg.Rows ↔ m + 1 ≤ n) := by
    intro m hm
    rw [stateAfter_i sz env tags b m (by omega), hN]
    omega
  have hinit : PoolInv sz cfg env tags b (n / b) (0 / b) ⟨((n / b : Nat) : Int), [], []⟩ := by
    refine ⟨by simp, by simp, ?_, ?_⟩ <;> intro x hx <;> simp at hx
  obtain ⟨m, pl1, _, hm2, ⟨hmn, hI⟩, _, hres⟩ :=
    runLoop_inv sz cfg env tags b hb hB
      (fun m pl => m ≤ n ∧ PoolInv sz cfg env tags b (n / b) (m / b) pl)
      (fun e pl => ∃ kr ∈ pl.done, kr.2.firstPanic = some e)
      (by
        intro m t pl ⟨hmn, hI⟩ hc
        have hm1 : m + 1 ≤ n := (hcond m hmn).mp hc
        have hcnt : (m + 1) / b ≤ n / b := Nat.div_le_div_right hm1
        rw [started_stateAfter sz env tags b m hb]
        have hI1 : PoolInv sz cfg env tags b (n / b) ((m + 1) / b)
            { pl with ready := pl.ready ++
              (if (m + 1) / b = m / b + 1 then [(m / b, batchAt sz env tags b (m / b))]
               else []) } := by
          rcases succ_div_mod b m hb with ⟨_, hq, _, _⟩ | ⟨_, hq, _⟩
          · rw [if_pos hq, hq]; exact hI.spawn
          · rw [if_neg (by omega), hq]; simpa using hI
        rcases runPicks_inv hcnt hD (env.sched t) _ hI1 with ⟨pl1, h1, h2⟩ | ⟨e, pl1, h1, h2, h3⟩
        · exact Or.inl ⟨pl1, h1, hm1, h2⟩
        · exact Or.inr ⟨e, pl1, h1, ⟨hm1, h2⟩, h3⟩)
      fuel 0 0 ⟨((n / b : Nat) : Int), [], []⟩ ⟨Nat.zero_le n, hinit⟩
  rw [stateAfter_zero] at hres
  simp only [Nat.zero_add] at hm2 hres
  refine ⟨m, hmn, hm2, ?_⟩
  rw [writePhase_loop sz cfg env tags _ _ htags hd hadd fuel]
  rcases hres with ⟨hrun, hstop, hlt⟩ | ⟨hrun, hmf⟩ | ⟨e, hrun, hQ⟩
  · have hmeq : m = n := by
      have := (hcond m hmn).not.mp hstop
      omega
    subst hmeq
    have hw := waitLoop_inv hD pl1.ready.length 0 pl1 hI (le_refl _)
    rw [hrun]
    refine ⟨rfl, rfl, genAfter_clock env tags m, rfl, rfl, hw.1, ?_⟩
    rcases hw.2 with ⟨h1, h2, h3⟩ | ⟨e, h1, h2⟩
    · exact Or.inl ⟨h1, rfl, hlt, h2, h3⟩
    · exact Or.inr (Or.inr ⟨e, h1, h2⟩)
  · rw [hrun]
    exact ⟨rfl, rfl, genAfter_clock env tags m, rfl, rfl, hI, Or.inr (Or.inl ⟨rfl, hmf⟩)⟩
  · rw [hrun]
    exact ⟨rfl, rfl, genAfter_clock env tags m, rfl, rfl, hI, Or.inr (Or.inr ⟨e, rfl, hQ⟩)⟩

/-- The batches spawned for `0 <= Rows < maxInt` and `BatchSize >= 1`,
whatever the wait group and the goroutines do: those of the first `m`
iterations, for some `m <= Rows`. -/
theorem writePhase_spawned (sz : IntSize) (cfg : Config) (env : Env) (tags : List String)
    (b n : Nat) (hb : 0 < b) (hB : cfg.BatchSize = (b : Int)) (hN : cfg.Rows = (n : Int))
    (hmax : (n : Int) < maxInt sz) (htags : Tags cfg.Tags = .ok tags) (fuel : Nat) :
    ∃ m, m ≤ n ∧ m ≤ fuel ∧
      (writePhase sz cfg env fuel).spawned = (List.range (m / b)).map (batchAt sz env tags b) := by
  have hd : goDiv sz cfg.Rows cfg.BatchSize = .ok (((n / b : Nat) : Int)) := by
    rw [hN, hB]; exact goDiv_natCast sz n b hb (le_of_lt hmax)
  rcases wgAddTo_cases 0 (((n / b : Nat) : Int)) with ⟨c, hadd⟩ | hadd
  · have hcond : ∀ m, m ≤ n → ((stateAfter sz env tags b m).i ≤ cfg.Rows ↔ m + 1 ≤ n) := by
      intro m hm
      rw [stateAfter_i sz env tags b m (by omega), hN]
      omega
    obtain ⟨m, pl1, _, hm2, hmn, _, hres⟩ :=
      runLoop_inv sz cfg env tags b hb hB (fun m _ => m ≤ n) (fun _ _ => True)
        (by
          intro m t pl hmn hc
          have hm1 : m + 1 ≤ n := (hcond m hmn).mp hc
          rcases runPicks_cases sz cfg env (env.sched t)
            { pl with ready := pl.ready ++
                started (stateAfter sz env tags b m) (stateAfter sz env tags b (m + 1)) }
            with ⟨pl1, h⟩ | ⟨e, pl1, h⟩
          · exact Or.inl ⟨pl1, h, hm1⟩
          · exact Or.inr ⟨e, pl1, h, hm1, trivial⟩)
        fuel 0 0 ⟨c, [], []⟩ (Nat.zero_le n)
    rw [stateAfter_zero] at hres
    simp only [Nat.zero_add] at hm2
    refine ⟨m, hmn, hm2, ?_⟩
    rw [writePhase_loop sz cfg env tags _ _ htags hd hadd fuel]
    rcases hres with ⟨hrun, _⟩ | ⟨hrun, _⟩ | ⟨e, hrun, _⟩ <;> rw [hrun] <;> rfl
  · refine ⟨0, Nat.zero_le _, Nat.zero_le _, ?_⟩
    rw [writePhase_add_error sz cfg env tags _ _ htags hd hadd fuel]
    simp [stopEarly]

/-- When every step of the setup passes, `main` is its write phase. -/
theorem main_eq_writePhase (sz : IntSize) (cfg : Config) (env : Env) (fuel : Nat)
    (h : setupPasses cfg env = true) : main sz cfg env fuel = writePhase sz cfg env fuel := by
  simp only [setupPasses, Bool.and_eq_true, Option.isNone_iff_eq_none] at h
  obtain ⟨⟨⟨h1, h2⟩, h3⟩, h4⟩ := h
  simp only [main, h1, h2, h3]
  split at h4
  · next r hr =>
    rw [Option.isNone_iff_eq_none] at h4
    simp only [hr, h4]
  · exact absurd h4 (by simp)

theorem main_of_not_setupPasses (sz : IntSize) (cfg : Config) (env : Env) (fuel : Nat)
    (h : setupPasses cfg env = false) :
    ∃ e log, main sz cfg env fuel = stopEarly e log ∧ e ≠ .panicked .divideByZero := by
  cases h1 : env.urlParse cfg.Host with
  | some e => exact ⟨_, _, by simp only [main, h1]; rfl, by simp⟩
  | none =>
    cases h2 : env.newClient cfg.Host with
    | some e => exact ⟨_, _, by simp only [main, h1, h2]; rfl, by simp⟩
    | none =>
      cases h3 : otherError env (env.query ("create database " ++ cfg.Database)).2 with
      | some m => exact ⟨_, _, by simp only [main, h1, h2, h3]; rfl, by simp⟩
      | none =>
        cases hr : (env.query ("create database " ++ cfg.Database)).1 with
        | none => exact ⟨_, _, by simp only [main, h1, h2, h3, hr]; rfl, by simp⟩
        | some r =>
          cases h4 : otherError env r.Err with
          | some m => exact ⟨_, _, by simp only [main, h1, h2, h3, hr, h4]; rfl, by simp⟩
          | none => simp [setupPasses, h1, h2, h3, hr, h4] at h

/-- Every write succeeds and the count fits the counter: the process runs
to completion. -/
theorem writePhase_completed (sz : IntSize) (cfg : Config) (env : Env) (tags : List String)
    (b n : Nat) (hb : 0 < b) (hB : cfg.BatchSize = (b : Int)) (hN : cfg.Rows = (n : Int))
    (hmax : (n : Int) < maxInt sz) (hD : ((n / b : Nat) : Int) < 2147483648)
    (htags : Tags cfg.Tags = .ok tags) (fuel : Nat) (hfuel : n < fuel)
    (hw : ∀ k, k < n / b → writeOk env k) :
    (writePhase sz cfg env fuel).exit = .completed ∧
    (writePhase sz cfg env fuel).wgAdd = some ((n / b : Nat) : Int) ∧
    (writePhase sz cfg env fuel).log = [] ∧
    (writePhase sz cfg env fuel).generated = n ∧
    (writePhase sz cfg env fuel).pending = block env tags b (n / b) (n % b) ∧
    (writePhase sz cfg env fuel).spawned = (List.range (n / b)).map (batchAt sz env tags b) ∧
    (writePhase sz cfg env fuel).counter = 0 ∧
    (writePhase sz cfg env fuel).ready = [] ∧
    ((writePhase sz cfg env fuel).workers.map Prod.fst).Perm (List.range (n / b)) ∧
    (∀ kr ∈ (writePhase sz cfg env fuel).workers, ∃ c : Int, 0 < c ∧ c < 2147483648 ∧
      kr.2 = worker sz cfg (batchAt sz env tags b kr.1) (env.write kr.1) c) := by
  obtain ⟨m, hmn, hmf, h1, h2, h3, h4, h5, hI, hexit⟩ :=
    writePhase_counted sz cfg env tags b n hb hB hN hmax hD htags fuel
  have hBne : cfg.BatchSize ≠ 0 := by omega
  have hdone : ∀ kr ∈ (writePhase sz cfg env fuel).workers, ∃ c : Int, 0 < c ∧ c < 2147483648 ∧
      kr.2 = worker sz cfg (batchAt sz env tags b kr.1) (env.write kr.1) c := by
    intro kr hkr
    obtain ⟨c, hc0, hc1, hc2⟩ := hI.2.2.2 kr hkr
    exact ⟨c, hc0, by omega, hc2⟩
  have hlt : ∀ kr ∈ (writePhase sz cfg env fuel).workers, kr.1 < n / b := by
    intro kr hkr
    have := hI.index_lt.2 kr hkr
    have hle : m / b ≤ n / b := Nat.div_le_div_right hmn
    omega
  rcases hexit with ⟨he, hm, _, hc, hr⟩ | ⟨_, hm⟩ | ⟨e, _, kr, hkr, hp⟩
  · subst hm
    refine ⟨he, h1, h2, h3, h4, h5, hc, hr, ?_, hdone⟩
    have := hI.2.1
    simp only [hr, List.map_nil, List.nil_append] at this
    exact this
  · omega
  · exfalso
    obtain ⟨c, hc0, hc1, hc2⟩ := hdone kr hkr
    rw [hc2, worker_firstPanic_ok sz cfg env _ kr.1 c hBne (hw kr.1 (hlt kr hkr)) hc0 hc1] at hp
    cases hp

/-- How `wg.Wait()` ends: it returns, it can never return, or a goroutine
panics. -/
theorem waitLoop_exit (sz : IntSize) (cfg : Config) (env : Env) :
    ∀ (fuel j : Nat) (pl : Pool),
      (waitLoop sz cfg env fuel j pl).1 = .completed ∨
      (waitLoop sz cfg env fuel j pl).1 = .deadlock ∨
      ∃ e b k c, (waitLoop sz cfg env fuel j pl).1 = .panicked e ∧
        (worker sz cfg b (env.write k) c).firstPanic = some e := by
  intro fuel
  induction fuel with
  | zero =>
    intro j pl
    rw [waitLoop]
    split
    · exact Or.inl rfl
    · exact Or.inr (Or.inl rfl)
  | succ f ih =>
    intro j pl
    rw [waitLoop]
    split
    · exact Or.inl rfl
    · cases hkb : pl.ready[env.waitSched j % pl.ready.length]? with
      | none => exact Or.inr (Or.inl rfl)
      | some kb =>
        simp only
        cases hfp : (worker sz cfg kb.2 (env.write kb.1) pl.counter).firstPanic with
        | some e => exact Or.inr (Or.inr ⟨e, kb.2, kb.1, pl.counter, rfl, hfp⟩)
        | none => exact ih (j + 1) _

/-- A panic of the goroutines the scheduler runs is the panic of a batch
goroutine. -/
theorem runPicks_error (sz : IntSize) (cfg : Config) (env : Env) :
    ∀ (picks : List Nat) (pl : Pool) (e : Panic) (pl1 : Pool),
      runPicks sz cfg env picks pl = .error (e, pl1) →
      ∃ b k c, (worker sz cfg b (env.write k) c).firstPanic = some e
  | [], pl, e, pl1, h => by simp [runPicks] at h
  | p :: ps, pl, e, pl1, h => by
    rw [runPicks] at h
    cases hkb : pl.ready[p]? with
    | none =>
      rw [hkb] at h
      exact runPicks_error sz cfg env ps pl e pl1 h
    | some kb =>
      rw [hkb] at h
      simp only at h
      cases hfp : (worker sz cfg kb.2 (env.write kb.1) pl.counter).firstPanic with
      | some e1 =>
        rw [hfp] at h
        simp only [Except.error.injEq, Prod.mk.injEq] at h
        exact ⟨kb.2, kb.1, pl.counter, by rw [hfp, h.1]⟩
      | none =>
        rw [hfp] at h
        exact runPicks_error sz cfg env ps _ e pl1 h

/-- With a non-zero batch size a panic inside the loop is the panic of a
batch goroutine. -/
theorem runLoop_panicked (sz : IntSize) (cfg : Config) (env : Env) (tags : List String)
    (hB : cfg.BatchSize ≠ 0) :
    ∀ (fuel t : Nat) (s : ProcState) (p : Panic) (s1 : ProcState),
      runLoop sz cfg env tags fuel t s = .panicked p s1 →
      ∃ b k c, (worker sz cfg b (env.write k) c).firstPanic = some p := by
  intro fuel
  induction fuel with
  | zero => intro t s p s1 h; simp [runLoop] at h
  | succ f ih =>
    intro t s p s1 h
    rw [runLoop] at h
    split at h
    · obtain ⟨l1, hl1⟩ := loopBody_ok_of_ne_zero sz cfg env tags s.loop hB
      rw [hl1] at h
      simp only at h
      cases hr : runPicks sz cfg env (env.sched t)
          { s.pool with ready := s.pool.ready ++ started s.loop l1 } with
      | error ep =>
        rw [hr] at h
        simp only [LoopResult.panicked.injEq] at h
        obtain ⟨b, k, c, hbkc⟩ := runPicks_error sz cfg env _ _ ep.1 ep.2 hr
        exact ⟨b, k, c, by rw [hbkc, h.1]⟩
      | ok pl =>
        rw [hr] at h
        exact ih (t + 1) _ p s1 h
    · cases h

theorem Tags_error {size : Int} {p : Panic} (h : Tags size = .error p) : p = .sliceBounds := by
  simp only [Tags] at h
  split at h
  · cases h
  · injection h with h; exact h.symm

/-- How the write phase ends. -/
theorem writePhase_exit (sz : IntSize) (cfg : Config) (env : Env) (fuel : Nat) :
    (writePhase sz cfg env fuel).exit = .completed ∨
    (writePhase sz cfg env fuel).exit = .deadlock ∨
    (writePhase sz cfg env fuel).exit = .running ∨
    (writePhase sz cfg env fuel).exit = .panicked .sliceBounds ∨
    (writePhase sz cfg env fuel).exit = .panicked .divideByZero ∧ cfg.BatchSize = 0 ∨
    (writePhase sz cfg env fuel).exit = .panicked .negativeCounter ∨
    (cfg.BatchSize ≠ 0 ∧ ∃ e b k c, (writePhase sz cfg env fuel).exit = .panicked e ∧
      (worker sz cfg b (env.write k) c).firstPanic = some e) := by
  unfold writePhase
  cases hT : Tags cfg.Tags with
  | error p =>
    rw [Tags_error hT]
    exact Or.inr (Or.inr (Or.inr (Or.inl rfl)))
  | ok tags =>
    simp only
    by_cases hB : cfg.BatchSize = 0
    · simp only [goDiv, if_pos hB]
      exact Or.inr (Or.inr (Or.inr (Or.inr (Or.inl ⟨rfl, hB⟩))))
    · simp only [goDiv, if_neg hB]
      generalize wrapInt sz (cfg.Rows.tdiv cfg.BatchSize) = delta
      rcases wgAddTo_cases 0 delta with ⟨c, hadd⟩ | hadd
      · rw [hadd]
        simp only
        cases hrun : runLoop sz cfg env tags fuel 0 ⟨initLoop, ⟨c, [], []⟩⟩ with
        | finished s =>
          simp only [record]
          rcases waitLoop_exit sz cfg env s.pool.ready.length 0 s.pool with h | h | h
          · exact Or.inl h
          · exact Or.inr (Or.inl h)
          · exact Or.inr (Or.inr (Or.inr (Or.inr (Or.inr (Or.inr ⟨hB, h⟩)))))
        | running s => exact Or.inr (Or.inr (Or.inl rfl))
        | panicked p s =>
          obtain ⟨b, k, c1, h⟩ := runLoop_panicked sz cfg env tags hB fuel 0 _ p s hrun
          exact Or.inr (Or.inr (Or.inr (Or.inr (Or.inr (Or.inr ⟨hB, p, b, k, c1, rfl, h⟩)))))
      · rw [hadd]
        exact Or.inr (Or.inr (Or.inr (Or.inr (Or.inr (Or.inl rfl)))))

theorem writePhase_exit_ne_returned (sz : IntSize) (cfg : Config) (env : Env) (fuel : Nat) :
    (writePhase sz cfg env fuel).exit ≠ .returned := by
  rcases writePhase_exit sz cfg env fuel with h | h | h | h | ⟨h, _⟩ | h | ⟨_, e, _, _, _, h, _⟩ <;>
    rw [h] <;> simp

theorem writePhase_no_divideByZero (sz : IntSize) (cfg : Config) (env : Env) (fuel : Nat)
    (hB : cfg.BatchSize ≠ 0) :
    (writePhase sz cfg env fuel).exit ≠ .panicked .divideByZero := by
  rcases writePhase_exit sz cfg env fuel with
    h | h | h | h | ⟨_, h0⟩ | h | ⟨_, e, b, k, c, h, hw⟩
  · rw [h]; simp
  · rw [h]; simp
  · rw [h]; simp
  · rw [h]; simp
  · exact absurd h0 hB
  · rw [h]; simp
  · rw [h]
    intro he
    injection he with he
    subst he
    exact worker_firstPanic_ne_divideByZero sz cfg b (env.write k) c hB hw

theorem writePhase_batch_zero (sz : IntSize) (cfg : Config) (env : Env) (fuel : Nat)
    (hB : cfg.BatchSize = 0) :
    (writePhase sz cfg env fuel).generated = 0 ∧ (writePhase sz cfg env fuel).spawned = [] ∧
    (0 ≤ cfg.Tags ∧ cfg.Tags ≤ 5 →
      writePhase sz cfg env fuel = stopEarly (.panicked .divideByZero) []) := by
  unfold writePhase
  cases hT : Tags cfg.Tags with
  | error p =>
    refine ⟨rfl, rfl, fun h => ?_⟩
    rw [Tags_ok h.1 h.2] at hT
    cases hT
  | ok tags => simp [goDiv, hB, stopEarly]

/-- With a non-nil result, `main` passes the create-database step exactly
when neither error is an error other than already-exists. -/
theorem main_query_nonNil (sz : IntSize) (cfg : Config) (env : Env) (fuel : Nat)
    (r : Results) (h1 : env.urlParse cfg.Host = none) (h2 : env.newClient cfg.Host = none)
    (hr : (env.query ("create database " ++ cfg.Database)).1 = some r) :
    (otherError env (env.query ("create database " ++ cfg.Database)).2 = none ∧
        otherError env r.Err = none →
      main sz cfg env fuel = writePhase sz cfg env fuel) ∧
    ((main sz cfg env fuel).exit = .returned ↔
      ¬ (otherError env (env.query ("create database " ++ cfg.Database)).2 = none ∧
        otherError env r.Err = none)) := by
  unfold main
  simp only [h1, h2, hr]
  cases h3 : otherError env (env.query ("create database " ++ cfg.Database)).2 with
  | some m => simp [stopEarly]
  | none =>
    cases h4 : otherError env r.Err with
    | some m => simp [stopEarly]
    | none =>
      simp only [true_and, not_true_eq_false, iff_false, and_self, forall_const]
      exact writePhase_exit_ne_returned sz cfg env fuel

/-- Negative `Rows` and `BatchSize` with a quotient that fits the counter:
the count is positive, the loop body never runs, and `wg.Wait()` blocks for
ever. -/
theorem writePhase_negative (sz : IntSize) (cfg : Config) (env : Env) (tags : List String)
    (fuel : Nat) (hN : cfg.Rows < 0) (hB : cfg.BatchSize < 0) (hle : cfg.Rows ≤ cfg.BatchSize)
    (hq : Int.tdiv cfg.Rows cfg.BatchSize < 2147483648) (hf : 0 < fuel)
    (htags : Tags cfg.Tags = .ok tags) :
    0 < Int.tdiv cfg.Rows cfg.BatchSize ∧
    writePhase sz cfg env fuel
      = record .deadlock (Int.tdiv cfg.Rows cfg.BatchSize) initLoop
          ⟨Int.tdiv cfg.Rows cfg.BatchSize, [], []⟩ := by
  obtain ⟨n, hn⟩ := Int.eq_ofNat_of_zero_le (show 0 ≤ -cfg.Rows by omega)
  obtain ⟨b, hb⟩ := Int.eq_ofNat_of_zero_le (show 0 ≤ -cfg.BatchSize by omega)
  have hN1 : cfg.Rows = -(n : Int) := by omega
  have hB1 : cfg.BatchSize = -(b : Int) := by omega
  have hbpos : 0 < b := by omega
  have hbn : b ≤ n := by omega
  have hqe : Int.tdiv cfg.Rows cfg.BatchSize = ((n / b : Nat) : Int) := by
    rw [hN1, hB1, Int.tdiv_neg, Int.neg_tdiv, neg_neg, Int.ofNat_tdiv]
  have h1 : 1 ≤ n / b := (Nat.one_le_div_iff hbpos).mpr hbn
  have hpos : (0 : Int) < Int.tdiv cfg.Rows cfg.BatchSize := by
    rw [hqe]; exact_mod_cast h1
  refine ⟨hpos, ?_⟩
  obtain ⟨d, hdd⟩ : ∃ d, Int.tdiv cfg.Rows cfg.BatchSize = d := ⟨_, rfl⟩
  rw [hdd] at hq hpos ⊢
  have hwrap : wrapInt sz d = d := by
    apply wrapInt_of_inRange
    · have := minInt_neg sz; omega
    · cases sz <;> simp only [maxInt, IntSize.bits] <;> norm_num <;> omega
  have hd : goDiv sz cfg.Rows cfg.BatchSize = .ok d := by
    rw [goDiv, if_neg (by omega), hdd, hwrap]
  have hadd : wgAddTo 0 d = .ok d := wgAddTo_zero_of_lt d (le_of_lt hpos) hq
  rw [writePhase_loop sz cfg env tags _ _ htags hd hadd fuel]
  obtain ⟨f, rfl⟩ : ∃ f, fuel = f + 1 := ⟨fuel - 1, by omega⟩
  have hrun : runLoop sz cfg env tags (f + 1) 0 ⟨initLoop, ⟨d, [], []⟩⟩
      = .finished ⟨initLoop, ⟨d, [], []⟩⟩ := by
    rw [runLoop, if_neg (by simp only [initLoop]; omega)]
  rw [hrun]
  simp only [List.length_nil, waitLoop, if_neg (ne_of_gt hpos)]

/-- With `Rows` the largest `int` the condition `i <= Rows` never fails: the
loop ends only by the panic of a goroutine. -/
theorem runLoop_maxInt (sz : IntSize) (cfg : Config) (env : Env) (tags : List String)
    (b : Nat) (hb : 0 < b) (hB : cfg.BatchSize = (b : Int)) (hN : cfg.Rows = maxInt sz)
    (fuel : Nat) (pl : Pool) :
    (∃ pl1, runLoop sz cfg env tags fuel 0 ⟨initLoop, pl⟩
        = .running ⟨stateAfter sz env tags b fuel, pl1⟩) ∨
    (∃ e m pl1, runLoop sz cfg env tags fuel 0 ⟨initLoop, pl⟩
        = .panicked e ⟨stateAfter sz env tags b m, pl1⟩) := by
  obtain ⟨m, pl1, _, _, _, _, hres⟩ :=
    runLoop_inv sz cfg env tags b hb hB (fun _ _ => True) (fun _ _ => True)
      (by
        intro m t pl _ _
        rcases runPicks_cases sz cfg env (env.sched t)
          { pl with ready := pl.ready ++
              started (stateAfter sz env tags b m) (stateAfter sz env tags b (m + 1)) }
          with ⟨pl1, h⟩ | ⟨e, pl1, h⟩
        · exact Or.inl ⟨pl1, h, trivial⟩
        · exact Or.inr ⟨e, pl1, h, trivial, trivial⟩)
      fuel 0 0 pl trivial
  rw [stateAfter_zero] at hres
  rcases hres with ⟨_, hstop, _⟩ | ⟨hrun, hm⟩ | ⟨e, hrun, _⟩
  · exact absurd (by rw [hN]; exact wrapInt_le_max sz _) hstop
  · rw [Nat.zero_add] at hm
    subst hm
    exact Or.inl ⟨pl1, hrun⟩
  · exact Or.inr ⟨e, m, pl1, hrun⟩

/-- With `Rows` the largest `int`, of either width, `main` never gets past
`wg.Wait()`. -/
theorem main_rows_maxInt_not_completed (sz : IntSize) (cfg : Config) (env : Env) (fuel : Nat)
    (hsetup : setupPasses cfg env = true) (htags : 0 ≤ cfg.Tags ∧ cfg.Tags ≤ 5)
    (hB : 1 ≤ cfg.BatchSize) (hN : cfg.Rows = maxInt sz) :
    (main sz cfg env fuel).exit ≠ .completed := by
  obtain ⟨b, hb⟩ := Int.eq_ofNat_of_zero_le (show 0 ≤ cfg.BatchSize by omega)
  rw [main_eq_writePhase sz cfg env fuel hsetup]
  have hBne : cfg.BatchSize ≠ 0 := by omega
  obtain ⟨delta, hd⟩ : ∃ delta, goDiv sz cfg.Rows cfg.BatchSize = .ok delta :=
    ⟨_, by rw [goDiv, if_neg hBne]⟩
  rcases wgAddTo_cases 0 delta with ⟨c, hadd⟩ | hadd
  · rw [writePhase_loop sz cfg env _ _ _ (Tags_ok htags.1 htags.2) hd hadd fuel]
    rcases runLoop_maxInt sz cfg env _ b (by omega) hb hN fuel ⟨c, [], []⟩ with
      ⟨pl1, h⟩ | ⟨e, m, pl1, h⟩ <;> rw [h] <;> simp [record]
  · rw [writePhase_add_error sz cfg env _ _ _ (Tags_ok htags.1 htags.2) hd hadd fuel]
    simp [stopEarly]

/-- In `envOk` no goroutine runs during the loop, so with `Rows` the largest
32-bit `int` the run is still in the loop after any number of iterations. -/
theorem main_cfgMax32 (fuel : Nat) :
    ∃ pl, main .w32 cfgMax32 envOk fuel
      = record .running 2097151 (stateAfter .w32 envOk [] 1024 fuel) pl := by
  have hd : goDiv .w32 cfgMax32.Rows cfgMax32.BatchSize = .ok 2097151 := by
    have := goDiv_natCast .w32 2147483647 1024 (by decide) (by decide)
    simpa [cfgMax32, cfgOf] using this
  have hadd : wgAddTo 0 2097151 = .ok 2097151 := wgAddTo_zero_of_lt _ (by decide) (by decide)
  obtain ⟨m, pl1, _, _, _, _, hres⟩ :=
    runLoop_inv .w32 cfgMax32 envOk [] 1024 (by decide) rfl (fun _ _ => True)
      (fun _ _ => False)
      (by
        intro m t pl _ _
        exact Or.inl ⟨_, rfl, trivial⟩)
      fuel 0 0 ⟨2097151, [], []⟩ trivial
  rw [stateAfter_zero] at hres
  rw [main_eq_writePhase .w32 cfgMax32 envOk fuel (by decide),
    writePhase_loop .w32 cfgMax32 envOk [] _ _ (Tags_ok (by decide) (by decide)) hd hadd fuel]
  rcases hres with ⟨_, hstop, _⟩ | ⟨hrun, hm⟩ | ⟨e, _, hQ⟩
  · have hrows : cfgMax32.Rows = maxInt .w32 := by decide
    have hle := wrapInt_le_max .w32 ((m : Int) + 1)
    rw [← hrows] at hle
    simp only [stateAfter] at hstop
    exact (hstop hle).elim
  · rw [Nat.zero_add] at hm
    subst hm
    exact ⟨pl1, by rw [hrun]⟩
  · exact absurd hQ id

/-- The run of `main` when the setup passes, `0 <= Rows < maxInt`,
`BatchSize >= 1`, the count `Rows / BatchSize` fits the wait-group counter
and every write succeeds. -/
theorem main_completed (sz : IntSize) (cfg : Config) (env : Env) (fuel : Nat)
    (hsetup : setupPasses cfg env = true) (htags : 0 ≤ cfg.Tags ∧ cfg.Tags ≤ 5)
    (hN0 : 0 ≤ cfg.Rows) (hNmax : cfg.Rows < maxInt sz) (hB : 1 ≤ cfg.BatchSize)
    (hcount : cfg.Rows / cfg.BatchSize < 2147483648) (hwrite : ∀ k, writeOk env k)
    (hfuel : cfg.Rows.toNat < fuel) :
    ∃ n b : Nat, cfg.Rows = (n : Int) ∧ cfg.BatchSize = (b : Int) ∧ 0 < b ∧
      (main sz cfg env fuel).exit = .completed ∧
      (main sz cfg env fuel).wgAdd = some ((n / b : Nat) : Int) ∧
      (main sz cfg env fuel).log = [] ∧
      (main sz cfg env fuel).generated = n ∧
      (main sz cfg env fuel).pending
        = block env (tagNames.take cfg.Tags.toNat) b (n / b) (n % b) ∧
      (main sz cfg env fuel).spawned
        = (List.range (n / b)).map (batchAt sz env (tagNames.take cfg.Tags.toNat) b) ∧
      (main sz cfg env fuel).counter = 0 ∧
      (main sz cfg env fuel).ready = [] ∧
      ((main sz cfg env fuel).workers.map Prod.fst).Perm (List.range (n / b)) ∧
      (∀ kr ∈ (main sz cfg env fuel).workers, ∃ c : Int, 0 < c ∧ c < 2147483648 ∧
        kr.2 = worker sz cfg (batchAt sz env (tagNames.take cfg.Tags.toNat) b kr.1)
          (env.write kr.1) c) := by
  obtain ⟨n, b, hn, hb, hbpos, hnn, hbb, hdiv, hmod⟩ := exists_nat_rows cfg hN0 hB
  rw [main_eq_writePhase sz cfg env fuel hsetup]
  exact ⟨n, b, hn, hb, hbpos,
    writePhase_completed sz cfg env _ b n hbpos hb hn (by rw [← hn]; exact hNmax)
      (by rw [← hdiv]; exact hcount) (Tags_ok htags.1 htags.2) fuel (by omega)
      (fun k _ => hwrite k)⟩

/-- A goroutine that found a positive counter and whose write succeeded did
one write with its batch and did not panic. -/
theorem worker_ok_run (sz : IntSize) (cfg : Config) (env : Env) (b : Batch) (k : Nat)
    (c : Int) (hB : cfg.BatchSize ≠ 0) (hw : writeOk env k) (h0 : 0 < c)
    (h1 : c < 2147483648) :
    (worker sz cfg b (env.write k) c).writes = [⟨cfg.Database, b.points⟩] ∧
    (worker sz cfg b (env.write k) c).firstPanic = none :=
  ⟨(worker_body_of_ne_zero sz cfg b (env.write k) c hB).1,
   worker_firstPanic_ok sz cfg env b k c hB hw h0 h1⟩

/-- The goroutines that ran when the count given to `wg.Add` fits the
counter: each carries the batch of its number and found a positive
counter. -/
theorem main_workers (sz : IntSize) (cfg : Config) (env : Env) (fuel : Nat)
    (hsetup : setupPasses cfg env = true) (htags : 0 ≤ cfg.Tags ∧ cfg.Tags ≤ 5)
    (hN0 : 0 ≤ cfg.Rows) (hNmax : cfg.Rows < maxInt sz) (hB : 1 ≤ cfg.BatchSize)
    (hcount : cfg.Rows / cfg.BatchSize < 2147483648) :
    (main sz cfg env fuel).wgAdd = some (cfg.Rows / cfg.BatchSize) ∧
    ((main sz cfg env fuel).spawned.length : Int) ≤ cfg.Rows / cfg.BatchSize ∧
    (main sz cfg env fuel).counter + ((main sz cfg env fuel).workers.length : Int)
      = cfg.Rows / cfg.BatchSize ∧
    (main sz cfg env fuel).ready.length + (main sz cfg env fuel).workers.length
      = (main sz cfg env fuel).spawned.length ∧
    (∀ kr ∈ (main sz cfg env fuel).workers, ∃ (batch : Batch) (c : Int),
      (main sz cfg env fuel).spawned[kr.1]? = some batch ∧ 0 < c ∧ c < 2147483648 ∧
      kr.2 = worker sz cfg batch (env.write kr.1) c) ∧
    ((main sz cfg env fuel).exit = .completed ∨ (main sz cfg env fuel).exit = .running ∨
      ∃ e, (main sz cfg env fuel).exit = .panicked e ∧
        ∃ kr ∈ (main sz cfg env fuel).workers, kr.2.firstPanic = some e) := by
  obtain ⟨n, b, hn, hb, hbpos, hnn, hbb, hdiv, hmod⟩ := exists_nat_rows cfg hN0 hB
  rw [main_eq_writePhase sz cfg env fuel hsetup]
  obtain ⟨m, hmn, hmf, h1, h2, h3, h4, h5, hI, hexit⟩ :=
    writePhase_counted sz cfg env _ b n hbpos hb hn (by rw [← hn]; exact hNmax)
      (by rw [← hdiv]; exact hcount) (Tags_ok htags.1 htags.2) fuel
  have hle : m / b ≤ n / b := Nat.div_le_div_right hmn
  have hlen : (writePhase sz cfg env fuel).spawned.length = m / b := by rw [h5]; simp
  have hl := hI.lengths
  simp only at hl
  refine ⟨by rw [h1, hdiv], by rw [hlen, hdiv]; exact_mod_cast hle, by rw [hdiv]; exact hI.1,
    by rw [hlen]; exact hl, ?_, ?_⟩
  · intro kr hkr
    obtain ⟨c, hc0, hc1, hc2⟩ := hI.2.2.2 kr hkr
    have hk := hI.index_lt.2 kr hkr
    refine ⟨batchAt sz env (tagNames.take cfg.Tags.toNat) b kr.1, c, ?_, hc0, by omega, hc2⟩
    rw [h5, List.getElem?_map, List.getElem?_range hk]; rfl
  · rcases hexit with ⟨he, _⟩ | ⟨he, _⟩ | he
    · exact Or.inl he
    · exact Or.inr (Or.inl he)
    · exact Or.inr (Or.inr he)

theorem firstPanic_ne_none_iff (r : WorkerRun) :
    r.firstPanic ≠ none ↔ (r.bodyPanic ≠ none ∨ r.donePanic ≠ none) := by
  simp only [WorkerRun.firstPanic]
  cases r.bodyPanic <;> cases r.donePanic <;> simp

/-! ## C1: number of batches -/

/-- Claim C1, amended: when the setup steps pass and `Tags` is within 0..5,
for every row count `0 <= N` below the largest `int` and every batch size
`B >= 1` with `N / B` below 2^31 (the range of the wait-group counter), and
when every write succeeds, under every schedule of the goroutines: the
process completes, having spawned exactly floor(N/B) batch goroutines, all
of which ran, each issuing exactly one `cl.Write` call with its own batch. -/
theorem main_spawns_floor_batches (sz : IntSize) (cfg : Config) (env : Env) (fuel : Nat)
    (hsetup : setupPasses cfg env = true) (htags : 0 ≤ cfg.Tags ∧ cfg.Tags ≤ 5)
    (hN0 : 0 ≤ cfg.Rows) (hNmax : cfg.Rows < maxInt sz) (hB : 1 ≤ cfg.BatchSize)
    (hcount : cfg.Rows / cfg.BatchSize < 2147483648) (hwrite : ∀ k, writeOk env k)
    (hfuel : cfg.Rows.toNat < fuel) :
    (main sz cfg env fuel).exit = .completed ∧
    ((main sz cfg env fuel).spawned.length : Int)
      = Int.floor ((cfg.Rows : ℚ) / (cfg.BatchSize : ℚ)) ∧
    (main sz cfg env fuel).ready = [] ∧
    ((main sz cfg env fuel).workers.map Prod.fst).Perm
      (List.range (main sz cfg env fuel).spawned.length) ∧
    ∀ kr ∈ (main sz cfg env fuel).workers, ∃ batch,
      (main sz cfg env fuel).spawned[kr.1]? = some batch ∧
      kr.2.writes = [⟨cfg.Database, batch.points⟩] := by
  obtain ⟨n, b, hn, hb, hbpos, he, _, _, _, _, hsp, _, hr, hperm, hws⟩ :=
    main_completed sz cfg env fuel hsetup htags hN0 hNmax hB hcount hwrite hfuel
  have hfl : Int.floor ((cfg.Rows : ℚ) / (cfg.BatchSize : ℚ)) = ((n / b : Nat) : Int) := by
    rw [hn, hb]
    have := Rat.floor_intCast_div_natCast (n : Int) b
    simpa using this
  have hlen : (main sz cfg env fuel).spawned.length = n / b := by rw [hsp]; simp
  refine ⟨he, by rw [hlen, hfl], hr, by rw [hlen]; exact hperm, ?_⟩
  intro kr hkr
  obtain ⟨c, hc0, hc1, hc2⟩ := hws kr hkr
  have hk : kr.1 < n / b := by
    have : kr.1 ∈ List.range (n / b) := hperm.subset (List.mem_map_of_mem _ hkr)
    exact List.mem_range.mp this
  refine ⟨batchAt sz env (tagNames.take cfg.Tags.toNat) b kr.1, ?_, ?_⟩
  · rw [hsp, List.getElem?_map, List.getElem?_range hk]; rfl
  · rw [hc2]
    exact (worker_body_of_ne_zero sz cfg _ (env.write kr.1) c (by omega)).1

/-- Witness of C1: five rows in batches of two, each goroutine running
right after the iteration that started it. -/
theorem main_spawns_floor_batches_witness :
    (main .w64 (cfgOf 2 5 2) envEager 6).exit = .completed ∧
    ((main .w64 (cfgOf 2 5 2) envEager 6).spawned.length : Int)
      = Int.floor (((cfgOf 2 5 2).Rows : ℚ) / ((cfgOf 2 5 2).BatchSize : ℚ)) ∧
    (main .w64 (cfgOf 2 5 2) envEager 6).ready = [] ∧
    ((main .w64 (cfgOf 2 5 2) envEager 6).workers.map Prod.fst).Perm
      (List.range (main .w64 (cfgOf 2 5 2) envEager 6).spawned.length) ∧
    ∀ kr ∈ (main .w64 (cfgOf 2 5 2) envEager 6).workers, ∃ batch,
      (main .w64 (cfgOf 2 5 2) envEager 6).spawned[kr.1]? = some batch ∧
      kr.2.writes = [⟨(cfgOf 2 5 2).Database, batch.points⟩] :=
  main_spawns_floor_batches .w64 (cfgOf 2 5 2) envEager 6 (by decide) (by decide) (by decide)
    (by decide) (by decide) (by decide)
    (fun _ => ⟨rfl, fun r h => by simp [envEager, envOk] at h⟩) (by decide)

/-- Counterexample to C1.  With one row and batch size two the process
completes and at no point of the run is the number of batches spawned
ceil(1/2) = 1: no batch is spawned at all.  On a 64-bit `int`, with 2^31
rows and batch size one, `wg.Add` panics and no batch is ever spawned.  With
four rows, batch size one and a first write that fails, the process ends
with one batch spawned.  With `Rows` the largest 32-bit `int` and batch size
1024 the process never completes, and after 2^32 iterations 4194304 batches
have been spawned, twice ceil(N/B). -/
theorem main_spawns_ceil_counterexample :
    ((main .w64 (cfgOf 0 1 2) envOk 2).exit = .completed ∧
      ¬ ∃ fuel, ((main .w64 (cfgOf 0 1 2) envOk fuel).spawned.length : Int)
          = Int.ceil (((cfgOf 0 1 2).Rows : ℚ) / ((cfgOf 0 1 2).BatchSize : ℚ))) ∧
    ((main .w64 (cfgOf 0 2147483648 1) envOk 1).exit = .panicked .negativeCounter ∧
      ¬ ∃ fuel, (main .w64 (cfgOf 0 2147483648 1) envOk fuel).spawned ≠ []) ∧
    ((main .w64 (cfgOf 0 4 1) envFailing 5).exit = .panicked (.explicit "") ∧
      (main .w64 (cfgOf 0 4 1) envFailing 5).spawned.length = 1) ∧
    ((¬ ∃ fuel, (main .w32 cfgMax32 envOk fuel).exit = .completed) ∧
      Int.ceil ((cfgMax32.Rows : ℚ) / (cfgMax32.BatchSize : ℚ)) = 2097152 ∧
      (main .w32 cfgMax32 envOk 4294967296).spawned.length = 4194304) := by
  have hc : Int.ceil (((cfgOf 0 1 2).Rows : ℚ) / ((cfgOf 0 1 2).BatchSize : ℚ)) = 1 := by
    rw [Int.ceil_eq_iff]; simp [cfgOf]; norm_num
  refine ⟨⟨by decide, ?_⟩, ⟨by decide, ?_⟩, ⟨by decide, by decide⟩, ?_, ?_, ?_⟩
  · rintro ⟨fuel, h⟩
    obtain ⟨m, hm, _, hsp⟩ := writePhase_spawned .w64 (cfgOf 0 1 2) envOk _ 2 1 (by decide)
      rfl rfl (by decide) (Tags_ok (by decide) (by decide)) fuel
    rw [hc, main_eq_writePhase .w64 (cfgOf 0 1 2) envOk fuel (by decide), hsp] at h
    have : m / 2 = 0 := by omega
    simp [this] at h
  · rintro ⟨fuel, h⟩
    apply h
    have hd : goDiv .w64 (cfgOf 0 2147483648 1).Rows (cfgOf 0 2147483648 1).BatchSize
        = .ok 2147483648 := by
      have := goDiv_natCast .w64 2147483648 1 (by decide) (by decide)
      simpa [cfgOf] using this
    have hadd : wgAddTo 0 2147483648 = .error .negativeCounter := by
      rw [wgAddTo, if_pos (by decide)]
    rw [main_eq_writePhase .w64 _ envOk fuel (by decide),
      writePhase_add_error .w64 _ envOk _ _ _ (Tags_ok (by decide) (by decide)) hd hadd fuel]
    rfl
  · rintro ⟨fuel, h⟩
    obtain ⟨pl, hpl⟩ := main_cfgMax32 fuel
    rw [hpl] at h
    cases h
  · rw [Int.ceil_eq_iff]; simp [cfgMax32, cfgOf]; norm_num
  · obtain ⟨pl, hpl⟩ := main_cfgMax32 4294967296
    rw [hpl]; simp [record, stateAfter]

/-! ## C2: keys of the tag map -/

/-- Claim C2: for `0 <= n <= 5`, every random source and every position in
it, the keys of `randomTags(Tags(n))` are exactly the first `n` names of
`[region, row, rack, slot, host]`: none is missing, no other key is there. -/
theorem randomTags_keys (env : Env) (pos : Nat) (n : Int) (h0 : 0 ≤ n) (h5 : n ≤ 5) :
    ∃ tags, Tags n = .ok tags ∧
      (randomTags env pos tags).1.keys = ["region", "row", "rack", "slot", "host"].take n.toNat ∧
      ∀ k, k ∈ (randomTags env pos tags).1.keys ↔
        k ∈ ["region", "row", "rack", "slot", "host"].take n.toNat := by
  have key : (randomTags env pos (tagNames.take n.toNat)).1.keys
      = ["region", "row", "rack", "slot", "host"].take n.toNat := by
    obtain ⟨k, rfl⟩ := Int.eq_ofNat_of_zero_le h0
    have hk : k ≤ 5 := by omega
    interval_cases k <;>
      simp [randomTags, randomTagsStep, tagNames, TagMap.set, TagMap.keys]
  refine ⟨_, Tags_ok h0 h5, key, ?_⟩
  intro k; rw [key]

/-- Witness of C2: three tags requested. -/
theorem randomTags_keys_witness :
    ∃ tags, Tags 3 = .ok tags ∧
      (randomTags envOk 0 tags).1.keys = ["region", "row", "rack"] ∧
      ∀ k, k ∈ (randomTags envOk 0 tags).1.keys ↔ k ∈ ["region", "row", "rack"] :=
  randomTags_keys envOk 0 3 (by decide) (by decide)

/-! ## C3: which points are written -/

/-- Claim C3, amended: when the setup steps pass and `Tags` is within 0..5,
for every row count `0 <= N` below the largest `int` and every batch size
`B >= 1` with `N / B` below 2^31 (the range of the wait-group counter), and
when every write succeeds, under every schedule of the goroutines: `main`
builds `N` points and the process completes with nothing logged by `main`;
the batches handed to goroutines hold, concatenated in order, exactly the
first B*floor(N/B) generated points; every one of these batches is written
by exactly one `cl.Write` call and no goroutine panics; the last `N mod B`
generated points are left in `points`, in no batch; batches and `points`
together are the `N` generated points in order; and when `B` divides `N`
every generated point is in a batch. -/
theorem main_writes_first_points (sz : IntSize) (cfg : Config) (env : Env) (fuel : Nat)
    (hsetup : setupPasses cfg env = true) (htags : 0 ≤ cfg.Tags ∧ cfg.Tags ≤ 5)
    (hN0 : 0 ≤ cfg.Rows) (hNmax : cfg.Rows < maxInt sz) (hB : 1 ≤ cfg.BatchSize)
    (hcount : cfg.Rows / cfg.BatchSize < 2147483648) (hwrite : ∀ k, writeOk env k)
    (hfuel : cfg.Rows.toNat < fuel) :
    (main sz cfg env fuel).exit = .completed ∧
    (main sz cfg env fuel).log = [] ∧
    (main sz cfg env fuel).generated = cfg.Rows.toNat ∧
    ((main sz cfg env fuel).spawned.map (fun x => x.points)).flatten
      = (List.range (cfg.BatchSize * (cfg.Rows / cfg.BatchSize)).toNat).map
          (pointAt env (tagNames.take cfg.Tags.toNat)) ∧
    ((main sz cfg env fuel).workers.map (fun kr => kr.2.writes)).Perm
      ((main sz cfg env fuel).spawned.map (fun x => [⟨cfg.Database, x.points⟩])) ∧
    (∀ kr ∈ (main sz cfg env fuel).workers, kr.2.firstPanic = none) ∧
    (main sz cfg env fuel).pending
      = (List.range (cfg.Rows % cfg.BatchSize).toNat).map
          (fun t => pointAt env (tagNames.take cfg.Tags.toNat)
            ((cfg.BatchSize * (cfg.Rows / cfg.BatchSize)).toNat + t)) ∧
    ((main sz cfg env fuel).spawned.map (fun x => x.points)).flatten
        ++ (main sz cfg env fuel).pending
      = (List.range cfg.Rows.toNat).map (pointAt env (tagNames.take cfg.Tags.toNat)) ∧
    (cfg.Rows % cfg.BatchSize = 0 →
      (cfg.BatchSize * (cfg.Rows / cfg.BatchSize)).toNat = cfg.Rows.toNat ∧
      (main sz cfg env fuel).pending = []) := by
  obtain ⟨n, b, hn, hb, hbpos, he, _, hlog, hgen, hpend, hsp, _, _, hperm, hws⟩ :=
    main_completed sz cfg env fuel hsetup htags hN0 hNmax hB hcount hwrite hfuel
  have hdiv : cfg.Rows / cfg.BatchSize = ((n / b : Nat) : Int) := by
    rw [hn, hb]; exact (Int.natCast_div n b).symm
  have hmod : cfg.Rows % cfg.BatchSize = ((n % b : Nat) : Int) := by
    rw [hn, hb]; exact (Int.natCast_mod n b).symm
  have hnn : cfg.Rows.toNat = n := by omega
  have hw : (cfg.BatchSize * (cfg.Rows / cfg.BatchSize)).toNat = n / b * b := by
    rw [hdiv, hb, ← Int.natCast_mul, Int.toNat_natCast, Nat.mul_comm]
  have hr : (cfg.Rows % cfg.BatchSize).toNat = n % b := by
    rw [hmod, Int.toNat_natCast]
  have hBne : cfg.BatchSize ≠ 0 := by omega
  have hdm : n / b * b + n % b = n := by rw [Nat.mul_comm]; exact Nat.div_add_mod n b
  have hflat : ((main sz cfg env fuel).spawned.map (fun x => x.points)).flatten
      = (List.range (n / b * b)).map (pointAt env (tagNames.take cfg.Tags.toNat)) := by
    rw [hsp, ← join_blocks]
    simp [batchAt, Function.comp_def]
  have hrun : ∀ kr ∈ (main sz cfg env fuel).workers,
      kr.2.writes = [⟨cfg.Database,
        (batchAt sz env (tagNames.take cfg.Tags.toNat) b kr.1).points⟩] ∧
      kr.2.firstPanic = none := by
    intro kr hkr
    obtain ⟨c, hc0, hc1, hc2⟩ := hws kr hkr
    rw [hc2]
    exact worker_ok_run sz cfg env _ kr.1 c hBne (hwrite kr.1) hc0 hc1
  refine ⟨he, hlog, by rw [hgen, hnn], by rw [hflat, hw], ?_, fun kr hkr => (hrun kr hkr).2,
    by rw [hpend, hr, hw]; rfl, ?_, ?_⟩
  · have h1 : (main sz cfg env fuel).workers.map (fun kr => kr.2.writes)
        = ((main sz cfg env fuel).workers.map Prod.fst).map
            (fun k => [(⟨cfg.Database,
              (batchAt sz env (tagNames.take cfg.Tags.toNat) b k).points⟩ : BatchPoints)]) := by
      rw [List.map_map]
      apply List.map_congr_left
      intro kr hkr
      exact (hrun kr hkr).1
    rw [h1, hsp]
    have hp := hperm.map (fun k => [(⟨cfg.Database,
      (batchAt sz env (tagNames.take cfg.Tags.toNat) b k).points⟩ : BatchPoints)])
    have h2 : List.map (fun x : Batch => [(⟨cfg.Database, x.points⟩ : BatchPoints)])
        (List.map (batchAt sz env (tagNames.take cfg.Tags.toNat) b) (List.range (n / b)))
        = List.map (fun k => [(⟨cfg.Database,
            (batchAt sz env (tagNames.take cfg.Tags.toNat) b k).points⟩ : BatchPoints)])
          (List.range (n / b)) := by
      rw [List.map_map]; rfl
    rw [h2]
    exact hp
  · rw [hflat, hpend, hnn]
    have hsplit := List.range_add (n / b * b) (n % b)
    rw [hdm] at hsplit
    rw [hsplit, List.map_append, List.map_map]
    rfl
  · intro h0
    have h0' : n % b = 0 := by
      rw [hmod] at h0; exact_mod_cast h0
    refine ⟨?_, by rw [hpend, h0']; rfl⟩
    rw [hw, hnn]
    omega

/-- Witness of C3: five rows in batches of two; four points are written, the
fifth stays in `points`. -/
theorem main_writes_first_points_witness :
    (main .w64 (cfgOf 2 5 2) envEager 6).exit = .completed ∧
    (main .w64 (cfgOf 2 5 2) envEager 6).log = [] ∧
    (main .w64 (cfgOf 2 5 2) envEager 6).generated = 5 ∧
    ((main .w64 (cfgOf 2 5 2) envEager 6).spawned.map (fun x => x.points)).flatten
      = (List.range 4).map (pointAt envEager ["region", "row"]) ∧
    ((main .w64 (cfgOf 2 5 2) envEager 6).workers.map (fun kr => kr.2.writes)).Perm
      ((main .w64 (cfgOf 2 5 2) envEager 6).spawned.map
        (fun x => [⟨"test_load_database", x.points⟩])) ∧
    (main .w64 (cfgOf 2 5 2) envEager 6).pending
      = (List.range 1).map (fun t => pointAt envEager ["region", "row"] (4 + t)) :=
  have h := main_writes_first_points .w64 (cfgOf 2 5 2) envEager 6 (by decide) (by decide)
    (by decide) (by decide) (by decide) (by decide)
    (fun _ => ⟨rfl, fun r h => by simp [envEager, envOk] at h⟩) (by decide)
  ⟨h.1, h.2.1, h.2.2.1, h.2.2.2.1, h.2.2.2.2.1, h.2.2.2.2.2.2.1⟩

/-- Counterexample to C3.  With `Rows` the largest 32-bit `int` and batch
size 1024 the condition `i <= Rows` never fails, so the process never
completes; B*floor(N/B) is 2147482624, and after 2^31 iterations the first
2^31 generated points have all been handed to goroutines, the last `N mod B`
of the first `N` among them.  On a 64-bit `int`, with 2^31 rows and batch
size one, `wg.Add` panics before any point is built.  With four rows, batch
size one and a first write that fails, the process ends with one point
handed to a write call. -/
theorem main_writes_first_points_counterexample :
    ((¬ ∃ fuel, (main .w32 cfgMax32 envOk fuel).exit = .completed) ∧
      cfgMax32.BatchSize * (cfgMax32.Rows / cfgMax32.BatchSize) = 2147482624 ∧
      ((main .w32 cfgMax32 envOk 2147483648).spawned.map (fun x => x.points)).flatten
        = (List.range 2147483648).map (pointAt envOk [])) ∧
    ((main .w64 (cfgOf 0 2147483648 1) envOk 2147483649).exit = .panicked .negativeCounter ∧
      (main .w64 (cfgOf 0 2147483648 1) envOk 2147483649).generated = 0) ∧
    ((main .w64 (cfgOf 0 4 1) envFailing 5).exit = .panicked (.explicit "") ∧
      (main .w64 (cfgOf 0 4 1) envFailing 5).generated = 1 ∧
      ((main .w64 (cfgOf 0 4 1) envFailing 5).workers.map (fun kr => kr.2.writes)).length
        = 1) := by
  refine ⟨⟨?_, by decide, ?_⟩, ?_, by decide⟩
  · rintro ⟨fuel, h⟩
    obtain ⟨pl, hpl⟩ := main_cfgMax32 fuel
    rw [hpl] at h
    cases h
  · obtain ⟨pl, hpl⟩ := main_cfgMax32 2147483648
    rw [hpl]
    simp only [record]
    rw [stateAfter_points_flatten]
  · have hd : goDiv .w64 (cfgOf 0 2147483648 1).Rows (cfgOf 0 2147483648 1).BatchSize
        = .ok 2147483648 := by
      have := goDiv_natCast .w64 2147483648 1 (by decide) (by decide)
      simpa [cfgOf] using this
    have hadd : wgAddTo 0 2147483648 = .error .negativeCounter := by
      rw [wgAddTo, if_pos (by decide)]
    rw [main_eq_writePhase .w64 _ envOk _ (by decide),
      writePhase_add_error .w64 _ envOk _ _ _ (Tags_ok (by decide) (by decide)) hd hadd _]
    exact ⟨rfl, rfl⟩

/-! ## C4: content of each batch -/

/-- Claim C4, amended: when the setup steps pass and `Tags` is within 0..5,
for every row count `0 <= N` below the largest `int` and every batch size
`B >= 1`, at every point of the run, whatever the goroutines and the writes
do, the batch spawned as number `k + 1` holds exactly `B` points, namely the
points built at loop iterations `k * B + 1` through `(k + 1) * B` in that
order, is started with `i = (k + 1) * B`, and logs batch number
`i / BatchSize = k + 1`. -/
theorem main_batch_contents (sz : IntSize) (cfg : Config) (env : Env) (fuel : Nat)
    (hsetup : setupPasses cfg env = true) (htags : 0 ≤ cfg.Tags ∧ cfg.Tags ≤ 5)
    (hN0 : 0 ≤ cfg.Rows) (hNmax : cfg.Rows < maxInt sz) (hB : 1 ≤ cfg.BatchSize)
    (k : Nat) (batch : Batch) (hk : (main sz cfg env fuel).spawned[k]? = some batch) :
    (batch.points.length : Int) = cfg.BatchSize ∧
    batch.points = (List.range cfg.BatchSize.toNat).map
      (fun t => pointAt env (tagNames.take cfg.Tags.toNat) (k * cfg.BatchSize.toNat + t)) ∧
    batch.i = ((k : Int) + 1) * cfg.BatchSize ∧
    goDiv sz batch.i cfg.BatchSize = .ok ((k : Int) + 1) ∧
    ∀ (w : Option Results × Option String) (c : Int),
      (worker sz cfg batch w c).log.head? = some (.inserting cfg.BatchSize ((k : Int) + 1)) := by
  obtain ⟨n, b, hn, hb, hbpos, hnn, hbb, hdiv, hmod⟩ := exists_nat_rows cfg hN0 hB
  have hmax : (n : Int) < maxInt sz := by rw [← hn]; exact hNmax
  obtain ⟨m, hmn, _, hsp⟩ := writePhase_spawned sz cfg env _ b n hbpos hb hn hmax
    (Tags_ok htags.1 htags.2) fuel
  rw [main_eq_writePhase sz cfg env fuel hsetup, hsp] at hk
  simp only [List.getElem?_map] at hk
  have hklt : k < m / b := by
    by_contra hge
    rw [List.getElem?_eq_none (by simpa using hge)] at hk
    cases hk
  rw [List.getElem?_range hklt] at hk
  simp only [Option.map_some', Option.some.injEq] at hk
  have h1 : (k + 1) * b ≤ n := by
    calc (k + 1) * b ≤ (m / b) * b := Nat.mul_le_mul_right b hklt
      _ ≤ m := Nat.div_mul_le_self _ b
      _ ≤ n := hmn
  rw [batchAt_i sz env _ b k n h1 hmax] at hk
  subst hk
  have hq : goDiv sz (((k + 1) * b : Nat) : Int) cfg.BatchSize = .ok ((k : Int) + 1) := by
    rw [hb, goDiv_natCast sz ((k + 1) * b) b hbpos (by omega), Nat.mul_div_cancel _ hbpos]
    simp
  refine ⟨?_, ?_, ?_, hq, fun w c => worker_log_head sz cfg _ w c _ hq⟩
  · simp [block, hb]
  · simp only [block, hbb]
  · simp only [hb]; push_cast; ring

/-- Witness of C4: the second batch of five rows in batches of two. -/
theorem main_batch_contents_witness :
    (main .w64 (cfgOf 0 5 2) envOk 6).spawned[1]?
        = some ⟨block envOk [] 2 1 2, 4⟩ ∧
    goDiv .w64 4 (cfgOf 0 5 2).BatchSize = .ok 2 ∧
    (worker .w64 (cfgOf 0 5 2) ⟨block envOk [] 2 1 2, 4⟩ (none, none) 1).log.head?
        = some (.inserting 2 2) :=
  have hk : (main .w64 (cfgOf 0 5 2) envOk 6).spawned[1]? = some ⟨block envOk [] 2 1 2, 4⟩ := by
    decide
  have h := main_batch_contents .w64 (cfgOf 0 5 2) envOk 6 (by decide) (by decide) (by decide)
    (by decide) (by decide) 1 ⟨block envOk [] 2 1 2, 4⟩ hk
  ⟨hk, h.2.2.2.1, h.2.2.2.2 (none, none) 1⟩

/-- Counterexample to C4: with `Rows` the largest 32-bit `int` and batch size
1024, the batch spawned as number 2097152 is started with the wrapped
counter `i = -2147483648` and logs batch number -2097152. -/
theorem main_batch_contents_counterexample :
    ∃ batch, (main .w32 cfgMax32 envOk 2147483648).spawned[2097151]? = some batch ∧
      batch.i = -2147483648 ∧
      goDiv .w32 batch.i cfgMax32.BatchSize = .ok (-2097152) ∧
      ∀ c, (worker .w32 cfgMax32 batch (none, none) c).log = [.inserting 1024 (-2097152)] := by
  refine ⟨⟨block envOk [] 1024 2097151 1024, -2147483648⟩, ?_, rfl, ?_, ?_⟩
  · obtain ⟨pl, hpl⟩ := main_cfgMax32 2147483648
    rw [hpl]
    simp only [record, stateAfter]
    rw [List.getElem?_map, List.getElem?_range (by norm_num)]
    simp only [Option.map_some', batchAt]
    congr 2
  · simp only [goDiv, cfgMax32, cfgOf, wrapInt, IntSize.bits]
    rw [if_neg (by decide)]
    exact congrArg Except.ok (by decide)
  · intro c
    simp only [worker, workerBody, goDiv, cfgMax32, cfgOf, wrapInt, IntSize.bits]
    decide

/-! ## C5: the create-database query -/

/-- Claim C5, at the failing input: when `cl.Query` returns a nil result
together with the already-exists error, `main` passes the test on the
returned error and then calls `r.Error()` on the nil result: it panics with
a nil-pointer dereference, builds no point and starts no write.  The write
path tests `r != nil` before `r.Error()`; this path does not. -/
theorem main_query_nil_result_panics (sz : IntSize) (cfg : Config) (fuel : Nat) :
    (main sz cfg envExistsNil fuel).exit = .panicked .nilDereference ∧
    (main sz cfg envExistsNil fuel).generated = 0 ∧
    (main sz cfg envExistsNil fuel).spawned = [] := by
  simp [main, envExistsNil, envOk, otherError, stopEarly]

/-- With a non-nil, error-free result the already-exists error is tolerated:
`main` goes on to the write phase. -/
theorem main_query_exists_nonNil (sz : IntSize) (cfg : Config) (fuel : Nat) :
    main sz cfg envExists fuel = writePhase sz cfg envExists fuel :=
  main_eq_writePhase sz cfg envExists fuel (by simp [setupPasses, envExists, envOk, otherError])

/-! ## C6: setup failures -/

/-- Claim C6: if a setup step fails (the host does not parse, the client is
not created, or create-database fails with an error other than
already-exists, in the returned error or in the result), `main` returns
normally, without a panic, and no batch is handed to a goroutine, so no
write call is issued; no point is built and `wg.Add` is not reached. -/
theorem main_setup_failure_returns (sz : IntSize) (cfg : Config) (env : Env) (fuel : Nat)
    (h : env.urlParse cfg.Host ≠ none ∨ env.newClient cfg.Host ≠ none ∨
      (∃ m, (env.query ("create database " ++ cfg.Database)).2 = some m ∧
        m ≠ env.ErrDatabaseExists) ∨
      (∃ r m, (env.query ("create database " ++ cfg.Database)).1 = some r ∧
        r.Err = some m ∧ m ≠ env.ErrDatabaseExists)) :
    (main sz cfg env fuel).exit = .returned ∧
    (main sz cfg env fuel).spawned = [] ∧
    (main sz cfg env fuel).generated = 0 ∧
    (main sz cfg env fuel).wgAdd = none := by
  unfold main
  cases h1 : env.urlParse cfg.Host with
  | some e => simp [stopEarly]
  | none =>
    cases h2 : env.newClient cfg.Host with
    | some e => simp [stopEarly]
    | none =>
      simp only
      cases h3 : otherError env (env.query ("create database " ++ cfg.Database)).2 with
      | some m => simp [stopEarly]
      | none =>
        simp only
        rcases h with h | h | ⟨m, hm, hne⟩ | ⟨r, m, hr, hm, hne⟩
        · exact absurd h1 h
        · exact absurd h2 h
        · simp [otherError, hm, hne] at h3
        · simp [hr, otherError, hm, hne, stopEarly]

/-- Witness of C6: a host that does not parse. -/
theorem main_setup_failure_returns_witness :
    (main .w64 (cfgOf 0 4 2) envBadHost 5).exit = .returned ∧
    (main .w64 (cfgOf 0 4 2) envBadHost 5).spawned = [] ∧
    (main .w64 (cfgOf 0 4 2) envBadHost 5).generated = 0 ∧
    (main .w64 (cfgOf 0 4 2) envBadHost 5).wgAdd = none :=
  main_setup_failure_returns .w64 (cfgOf 0 4 2) envBadHost 5 (Or.inl (by simp [envBadHost]))

/-! ## C7: panic of a batch goroutine -/

/-- Claim C7, amended.  In every run in which the count given to `wg.Add`
fits the wait-group counter (the setup steps pass, `Tags` is within 0..5,
`0 <= N` is below the largest `int`, `B >= 1` and `N / B` is below 2^31),
every batch goroutine that ran issued exactly one write, called `Done` once
without a panic, and panicked if and only if its write failed, that is, iff
`cl.Write` returned a non-nil error or a non-nil result whose `Error()` is
non-nil; with a nil error and a nil or error-free result it did not panic.
In general, for a non-zero batch size and a counter `c` within
`0 <= c < 2^31`, the body of the goroutine panics iff the write failed, and
the deferred `wg.Done()` panics iff `c` is zero. -/
theorem worker_panics_iff (sz : IntSize) (cfg : Config) (env : Env) (fuel : Nat)
    (hsetup : setupPasses cfg env = true) (htags : 0 ≤ cfg.Tags ∧ cfg.Tags ≤ 5)
    (hN0 : 0 ≤ cfg.Rows) (hNmax : cfg.Rows < maxInt sz) (hB : 1 ≤ cfg.BatchSize)
    (hcount : cfg.Rows / cfg.BatchSize < 2147483648) :
    (∀ kr ∈ (main sz cfg env fuel).workers,
      (∃ batch, (main sz cfg env fuel).spawned[kr.1]? = some batch ∧
        kr.2.writes = [⟨cfg.Database, batch.points⟩]) ∧
      kr.2.dones = 1 ∧ kr.2.donePanic = none ∧
      (kr.2.firstPanic ≠ none ↔
        ((env.write kr.1).2 ≠ none ∨ ∃ r, (env.write kr.1).1 = some r ∧ r.Err ≠ none)) ∧
      (kr.2.firstPanic ≠ none → kr.2.firstPanic = some (.explicit "")) ∧
      ((env.write kr.1).2 = none →
        ((env.write kr.1).1 = none ∨ ∃ r, (env.write kr.1).1 = some r ∧ r.Err = none) →
        kr.2.firstPanic = none)) ∧
    (∀ (b : Batch) (w : Option Results × Option String) (c : Int), 0 ≤ c → c < 2147483648 →
      ((worker sz cfg b w c).bodyPanic ≠ none ↔
        (w.2 ≠ none ∨ ∃ r, w.1 = some r ∧ r.Err ≠ none)) ∧
      ((worker sz cfg b w c).donePanic ≠ none ↔ c = 0) ∧
      ((worker sz cfg b w c).firstPanic ≠ none ↔
        ((w.2 ≠ none ∨ ∃ r, w.1 = some r ∧ r.Err ≠ none) ∨ c = 0))) := by
  have hBne : cfg.BatchSize ≠ 0 := by omega
  have hgen : ∀ (b : Batch) (w : Option Results × Option String) (c : Int), 0 ≤ c →
      c < 2147483648 →
      ((worker sz cfg b w c).bodyPanic ≠ none ↔
        (w.2 ≠ none ∨ ∃ r, w.1 = some r ∧ r.Err ≠ none)) ∧
      ((worker sz cfg b w c).donePanic ≠ none ↔ c = 0) ∧
      ((worker sz cfg b w c).firstPanic ≠ none ↔
        ((w.2 ≠ none ∨ ∃ r, w.1 = some r ∧ r.Err ≠ none) ∨ c = 0)) := by
    intro b w c hc0 hc1
    have hbody := (worker_body_of_ne_zero sz cfg b w c hBne).2.2
    have hdone : (worker sz cfg b w c).donePanic ≠ none ↔ c = 0 := by
      by_cases h : c = 0
      · subst h
        rw [worker_done_zero]
        simp
      · rw [(worker_done_pos sz cfg b w c (by omega) hc1).1]
        simp [h]
    refine ⟨hbody, hdone, ?_⟩
    rw [firstPanic_ne_none_iff, hbody, hdone]
  refine ⟨?_, hgen⟩
  intro kr hkr
  obtain ⟨batch, c, hsp, hc0, hc1, hkr2⟩ :=
    (main_workers sz cfg env fuel hsetup htags hN0 hNmax hB hcount).2.2.2.2.1 kr hkr
  have hbody := worker_body_of_ne_zero sz cfg batch (env.write kr.1) c hBne
  have hdone := worker_done_pos sz cfg batch (env.write kr.1) c hc0 hc1
  have hfirst : kr.2.firstPanic = kr.2.bodyPanic := by
    rw [hkr2]
    simp only [WorkerRun.firstPanic, hdone.1]
    cases (worker sz cfg batch (env.write kr.1) c).bodyPanic <;> rfl
  rw [hfirst]
  rw [hkr2]
  refine ⟨⟨batch, hsp, hbody.1⟩, worker_dones sz cfg batch _ c, hdone.1, hbody.2.2, ?_, ?_⟩
  · intro h
    rcases hbody.2.1 with h1 | h1
    · exact absurd h1 h
    · exact h1
  · intro he hr
    by_contra h
    rcases hbody.2.2.mp h with h1 | ⟨r, hr1, hr2⟩
    · exact h1 he
    · rcases hr with hr | ⟨r1, hr3, hr4⟩
      · rw [hr] at hr1; cases hr1
      · rw [hr3] at hr1
        injection hr1 with hr1
        subst hr1
        exact hr2 hr4

/-- Witness of C7: four rows in batches of one, every write failing with a
timeout; the first goroutine runs, its write fails, and it panics with
`panic("")`. -/
theorem worker_panics_iff_witness :
    ∃ kr ∈ (main .w64 (cfgOf 0 4 1) envFailing 5).workers,
      (envFailing.write kr.1).2 ≠ none ∧ kr.2.firstPanic = some (.explicit "") :=
  have h := (worker_panics_iff .w64 (cfgOf 0 4 1) envFailing 5 (by decide) (by decide)
    (by decide) (by decide) (by decide) (by decide)).1
  have hmem : (0, worker .w64 (cfgOf 0 4 1) (batchAt .w64 envFailing [] 1 0)
      (none, some "timeout") 4) ∈ (main .w64 (cfgOf 0 4 1) envFailing 5).workers := by
    decide
  ⟨_, hmem, by simp [envFailing],
    (h _ hmem).2.2.2.2.1 (((h _ hmem).2.2.2.1).mpr (Or.inl (by simp [envFailing])))⟩

/-- Counterexample to C7: on a 64-bit `int`, with 2^32 rows and batch size
one, `wg.Add(4294967296)` leaves the 32-bit counter at zero; the first
goroutine writes its batch, the write succeeds with a nil error and a nil
result, and its deferred `wg.Done()` panics with a negative counter, which
ends the process. -/
theorem worker_panics_iff_counterexample :
    ∃ r, (main .w64 (cfgOf 0 4294967296 1) envEager 1).workers = [(0, r)] ∧
      envEager.write 0 = (none, none) ∧
      r.writes.length = 1 ∧ r.bodyPanic = none ∧
      r.firstPanic = some .negativeCounter ∧
      (main .w64 (cfgOf 0 4294967296 1) envEager 1).exit = .panicked .negativeCounter := by
  refine ⟨worker .w64 (cfgOf 0 4294967296 1) (batchAt .w64 envEager [] 1 0) (none, none) 0,
    by decide, rfl, by decide, by decide, by decide, by decide⟩

/-! ## C8: `Tags` -/

/-- Claim C8: `Tags(size)` succeeds if and only if `0 <= size <= 5`; a
result has length `size` and is the first `size` elements of
`[region, row, rack, slot, host]` in that order; for `size < 0` or
`size > 5` the call panics with a slice-bounds error. -/
theorem Tags_spec (size : Int) :
    ((∃ l, Tags size = .ok l) ↔ (0 ≤ size ∧ size ≤ 5)) ∧
    (∀ l, Tags size = .ok l →
      (l.length : Int) = size ∧ l = ["region", "row", "rack", "slot", "host"].take size.toNat) ∧
    (size < 0 ∨ 5 < size → Tags size = .error .sliceBounds) := by
  by_cases h : 0 ≤ size ∧ size ≤ 5
  · obtain ⟨h0, h5⟩ := h
    have hk : size.toNat ≤ 5 := by omega
    refine ⟨⟨fun _ => ⟨h0, h5⟩, fun _ => ⟨_, Tags_ok h0 h5⟩⟩, ?_, ?_⟩
    · intro l hl
      rw [Tags_ok h0 h5] at hl
      injection hl with hl
      subst hl
      refine ⟨?_, rfl⟩
      simp [tagNames, List.length_take]
      omega
    · intro h'; omega
  · have hT : Tags size = .error .sliceBounds := by
      simp only [Tags, tagNames, List.length_cons, List.length_nil]
      rw [if_neg]
      simpa using h
    refine ⟨⟨?_, fun h' => absurd h' h⟩, ?_, fun _ => hT⟩
    · rintro ⟨l, hl⟩; rw [hT] at hl; cases hl
    · intro l hl; rw [hT] at hl; cases hl

/-! ## C9: balance of the wait group -/

/-- Claim C9, amended.  When the setup steps pass and `Tags` is within 0..5:
(1) for `0 <= N` below the largest `int`, `B >= 1` and `N / B` below 2^31
(the range of the 32-bit wait-group counter), the count added up front is
`N / B`, at every point of the run at most `N / B` goroutines have been
spawned, each goroutine that ran called `Done` exactly once, without a panic
of `Done`, and left a counter that is not negative, the counter is `N / B`
minus the number of goroutines that ran and is not negative, and when no
write fails and the loop is given enough iterations the process completes
with exactly `N / B` goroutines spawned, all of them run, and the counter at
zero; (2) for `N < 0`, `B < 0`, `|N| >= |B|` and a quotient below 2^31, the
count added is positive, no goroutine is spawned, the counter keeps that
positive value and `wg.Wait()` can never return. -/
theorem waitgroup_balance (sz : IntSize) (cfg : Config) (env : Env) (fuel : Nat)
    (hsetup : setupPasses cfg env = true) (htags : 0 ≤ cfg.Tags ∧ cfg.Tags ≤ 5) :
    (0 ≤ cfg.Rows → cfg.Rows < maxInt sz → 1 ≤ cfg.BatchSize →
      cfg.Rows / cfg.BatchSize < 2147483648 →
      (main sz cfg env fuel).wgAdd = some (cfg.Rows / cfg.BatchSize) ∧
      ((main sz cfg env fuel).spawned.length : Int) ≤ cfg.Rows / cfg.BatchSize ∧
      (∀ kr ∈ (main sz cfg env fuel).workers,
        kr.2.dones = 1 ∧ kr.2.donePanic = none ∧ 0 ≤ kr.2.counter) ∧
      (main sz cfg env fuel).counter
        = cfg.Rows / cfg.BatchSize - ((main sz cfg env fuel).workers.length : Int) ∧
      0 ≤ (main sz cfg env fuel).counter ∧
      (main sz cfg env fuel).ready.length + (main sz cfg env fuel).workers.length
        = (main sz cfg env fuel).spawned.length ∧
      ((∀ k, writeOk env k) → cfg.Rows.toNat < fuel →
        (main sz cfg env fuel).exit = .completed ∧
        ((main sz cfg env fuel).spawned.length : Int) = cfg.Rows / cfg.BatchSize ∧
        ((main sz cfg env fuel).workers.length : Int) = cfg.Rows / cfg.BatchSize ∧
        (main sz cfg env fuel).ready = [] ∧
        (main sz cfg env fuel).counter = 0)) ∧
    (cfg.Rows < 0 → cfg.BatchSize < 0 → cfg.Rows ≤ cfg.BatchSize →
      Int.tdiv cfg.Rows cfg.BatchSize < 2147483648 → 0 < fuel →
      (main sz cfg env fuel).exit = .deadlock ∧
      (main sz cfg env fuel).spawned = [] ∧
      (main sz cfg env fuel).workers = [] ∧
      ∃ d, (main sz cfg env fuel).wgAdd = some d ∧ 0 < d ∧
        (main sz cfg env fuel).counter = d) := by
  constructor
  · intro hN0 hNmax hB hcount
    obtain ⟨h1, h2, h3, h4, h5, _⟩ :=
      main_workers sz cfg env fuel hsetup htags hN0 hNmax hB hcount
    have hwl : (main sz cfg env fuel).workers.length
        ≤ (main sz cfg env fuel).spawned.length := by omega
    refine ⟨h1, h2, ?_, by omega, by omega, h4, ?_⟩
    · intro kr hkr
      obtain ⟨batch, c, _, hc0, hc1, hkr2⟩ := h5 kr hkr
      have hd := worker_done_pos sz cfg batch (env.write kr.1) c hc0 hc1
      rw [hkr2]
      refine ⟨worker_dones sz cfg batch _ c, hd.1, ?_⟩
      rw [hd.2]; omega
    · intro hwrite hfuel
      obtain ⟨n, b, hn, hb, hbpos, he, _, _, _, _, _, hc, hr, _, _⟩ :=
        main_completed sz cfg env fuel hsetup htags hN0 hNmax hB hcount hwrite hfuel
      have hl : (main sz cfg env fuel).ready.length = 0 := by rw [hr]; rfl
      refine ⟨he, by omega, by omega, hr, hc⟩
  · intro hN hB hle hq hf
    obtain ⟨hpos, hrun⟩ :=
      writePhase_negative sz cfg env _ fuel hN hB hle hq hf (Tags_ok htags.1 htags.2)
    rw [main_eq_writePhase sz cfg env fuel hsetup, hrun]
    exact ⟨rfl, rfl, rfl, _, rfl, hpos, rfl⟩

/-- Witness of C9: five rows in batches of two, goroutines run as soon as
they are started; two is added, two goroutines are spawned and run, and the
counter ends at zero. -/
theorem waitgroup_balance_witness :
    (main .w64 (cfgOf 2 5 2) envEager 6).wgAdd = some 2 ∧
    (main .w64 (cfgOf 2 5 2) envEager 6).exit = .completed ∧
    ((main .w64 (cfgOf 2 5 2) envEager 6).spawned.length : Int) = 2 ∧
    ((main .w64 (cfgOf 2 5 2) envEager 6).workers.length : Int) = 2 ∧
    (main .w64 (cfgOf 2 5 2) envEager 6).counter = 0 :=
  have h := (waitgroup_balance .w64 (cfgOf 2 5 2) envEager 6 (by decide) (by decide)).1
    (by decide) (by decide) (by decide) (by decide)
  have h2 := h.2.2.2.2.2.2 (fun _ => ⟨rfl, fun r hr => by simp [envEager, envOk] at hr⟩)
    (by decide)
  ⟨h.1, h2.1, h2.2.1, h2.2.2.1, h2.2.2.2.2⟩

/-- Counterexample to C9.  With `N >= 0` and `B >= 1`: on a 64-bit `int`,
with 2^32 rows and batch size one, `wg.Add(4294967296)` leaves the 32-bit
counter at zero, and the `Done` of the first goroutine takes it to -1 and
panics; with 2^31 rows `wg.Add` itself panics, with the counter at -2^31,
and no goroutine is spawned; with `Rows` the largest 32-bit `int` and batch
size 1024 on a 32-bit `int`, 2097151 is added and after 2^31 iterations
2097152 goroutines have been spawned.  With `N < 0`, `B < 0` and `|N| >= |B|`: for the least 64-bit `int`
and `B = -1` the count added is negative, not positive, the counter is zero
and the process completes; for `N = -2^31` and `B = -1` the call `wg.Add`
panics. -/
theorem waitgroup_balance_counterexample :
    ((main .w64 (cfgOf 0 4294967296 1) envEager 1).wgAdd = some 4294967296 ∧
      (∃ r, (main .w64 (cfgOf 0 4294967296 1) envEager 1).workers = [(0, r)] ∧
        r.dones = 1 ∧ r.donePanic = some .negativeCounter ∧ r.counter = -1) ∧
      (main .w64 (cfgOf 0 4294967296 1) envEager 1).exit = .panicked .negativeCounter) ∧
    ((main .w64 (cfgOf 0 2147483648 1) envOk 1).wgAdd = some 2147483648 ∧
      (main .w64 (cfgOf 0 2147483648 1) envOk 1).exit = .panicked .negativeCounter ∧
      (main .w64 (cfgOf 0 2147483648 1) envOk 1).counter = -2147483648 ∧
      (main .w64 (cfgOf 0 2147483648 1) envOk 1).spawned = []) ∧
    ((main .w32 cfgMax32 envOk 2147483648).wgAdd = some 2097151 ∧
      (main .w32 cfgMax32 envOk 2147483648).spawned.length = 2097152) ∧
    ((main .w64 (cfgOf 0 (-9223372036854775808) (-1)) envOk 1).wgAdd
        = some (-9223372036854775808) ∧
      (main .w64 (cfgOf 0 (-9223372036854775808) (-1)) envOk 1).counter = 0 ∧
      (main .w64 (cfgOf 0 (-9223372036854775808) (-1)) envOk 1).exit = .completed) ∧
    ((main .w64 (cfgOf 0 (-2147483648) (-1)) envOk 1).wgAdd = some 2147483648 ∧
      (main .w64 (cfgOf 0 (-2147483648) (-1)) envOk 1).exit
        = .panicked .negativeCounter) := by
  refine ⟨⟨by decide, ⟨worker .w64 (cfgOf 0 4294967296 1) (batchAt .w64 envEager [] 1 0)
      (none, none) 0, by decide, by decide, by decide, by decide⟩, by decide⟩,
    ⟨by decide, by decide, by decide, by decide⟩, ?_, ⟨by decide, by decide, by decide⟩,
    ⟨by decide, by decide⟩⟩
  obtain ⟨pl, hpl⟩ := main_cfgMax32 2147483648
  rw [hpl]
  simp [record, stateAfter]

/-! ## C10: division by zero -/

/-- Claim C10: with `BatchSize` not zero no division or modulo by `BatchSize`
divides by zero: the process never ends in a division-by-zero panic, and no
batch goroutine raises one, in its body or in its deferred call.  With
`BatchSize` zero no point is built and no batch is written, whatever `Rows`
is; and when `main` gets as far as the wait-group setup (the setup steps pass
and `Tags` is within 0..5) it panics with a division by zero there, before
`wg.Add` is called. -/
theorem main_divide_by_zero (sz : IntSize) (cfg : Config) (env : Env) (fuel : Nat) :
    (cfg.BatchSize ≠ 0 →
      (main sz cfg env fuel).exit ≠ .panicked .divideByZero ∧
      ∀ (b : Batch) (w : Option Results × Option String) (c : Int),
        (worker sz cfg b w c).bodyPanic ≠ some .divideByZero ∧
        (worker sz cfg b w c).donePanic ≠ some .divideByZero) ∧
    (cfg.BatchSize = 0 →
      (main sz cfg env fuel).generated = 0 ∧ (main sz cfg env fuel).spawned = [] ∧
      (setupPasses cfg env = true → 0 ≤ cfg.Tags ∧ cfg.Tags ≤ 5 →
        main sz cfg env fuel = stopEarly (.panicked .divideByZero) [])) := by
  constructor
  · intro hB
    constructor
    · cases hs : setupPasses cfg env with
      | true =>
        rw [main_eq_writePhase sz cfg env fuel hs]
        exact writePhase_no_divideByZero sz cfg env fuel hB
      | false =>
        obtain ⟨e, log, hm, hne⟩ := main_of_not_setupPasses sz cfg env fuel hs
        rw [hm]; exact hne
    · intro b w c
      constructor
      · intro hp
        rcases (worker_body_of_ne_zero sz cfg b w c hB).2.1 with h | h <;>
          rw [hp] at h <;> cases h
      · intro hp
        rcases worker_donePanic_cases sz cfg b w c with h | h <;> rw [hp] at h <;> cases h
  · intro hB
    cases hs : setupPasses cfg env with
    | true =>
      rw [main_eq_writePhase sz cfg env fuel hs]
      obtain ⟨h1, h2, h3⟩ := writePhase_batch_zero sz cfg env fuel hB
      exact ⟨h1, h2, fun _ ht => h3 ht⟩
    | false =>
      obtain ⟨e, log, hm, _⟩ := main_of_not_setupPasses sz cfg env fuel hs
      rw [hm]
      exact ⟨rfl, rfl, fun h => absurd h (by simp)⟩

/-- Witness of C10: batch size two does not panic on a division, batch size
zero panics at the wait-group setup. -/
theorem main_divide_by_zero_witness :
    (main .w64 (cfgOf 0 4 2) envOk 5).exit ≠ .panicked .divideByZero ∧
    main .w64 (cfgOf 0 4 0) envOk 5 = stopEarly (.panicked .divideByZero) [] :=
  ⟨((main_divide_by_zero .w64 (cfgOf 0 4 2) envOk 5).1 (by decide)).1,
   ((main_divide_by_zero .w64 (cfgOf 0 4 0) envOk 5).2 rfl).2.2 (by decide) (by decide)⟩

end Loader
